import Mathlib

/-!
  Verification of the TfL data pipeline (src/etl/extract_tfl.py and
  src/etl/upload_tfl.py) against its natural-language specification.

  The Python code is shallowly embedded: JSON values become an inductive
  type, environment lookup and the HTTP transport become explicit
  parameters, and each public function returns its result together with an
  explicit record of its observable effects (requests issued, objects
  uploaded).  External collaborators (the HTTP transport, the gzip
  container, the object-storage client, pandas normalisation, the urllib3
  retry machinery) are modelled at the interface granularity the code uses,
  from their documented behaviour.
-/

namespace TflPipeline

/-- Left brace character, written via its code point. -/
def lbrace : Char := Char.ofNat 123

/-- Right brace character, written via its code point. -/
def rbrace : Char := Char.ofNat 125

/-- JSON values as decoded by Python's json module.  Numbers are modelled
as integers (the payloads the claims quantify over are structural; float
formatting is outside the embedding). -/
inductive Json where
  | null : Json
  | bool : Bool → Json
  | num : Int → Json
  | str : String → Json
  | arr : List Json → Json
  | obj : List (String × Json) → Json
deriving Repr

/-- Python's type(x).__name__ for a decoded JSON value, as used in the
error messages of get_tfl_data and get_line_routes. -/
def Json.pyTypeName : Json → String
  | .null => "NoneType"
  | .bool _ => "bool"
  | .num _ => "int"
  | .str _ => "str"
  | .arr _ => "list"
  | .obj _ => "dict"

/-- Truthiness of an optional string, as Python evaluates `x` in a boolean
context when x is None or a str: None and the empty string are falsy. -/
def pyTruthyStr : Option String → Bool
  | none => false
  | some s => !s.isEmpty

/-- Python's `a or b` on optional strings: `a` when truthy, else `b`.
This is how the code resolves each credential and config value from its
explicit argument and its environment variable. -/
def pyOr (a b : Option String) : Option String :=
  if pyTruthyStr a then a else b

/-- Error taxonomy of the pipeline.  In the Python source,
configurationError is raised as ValueError (missing credentials or
bucket), fetchError as RuntimeError from the fetch layer; the spec names
them ConfigurationError and FetchError. -/
inductive TflError where
  | configurationError : String → TflError
  | fetchError : String → TflError
deriving Repr

/-- Outcome of one transport round-trip, as the fetch layer observes it:
a requests-level failure (network error or non-2xx after the adapter's
retries, surfaced by raise_for_status), a body that fails JSON decoding,
or a decoded JSON value. -/
inductive Response where
  | transportError : Response
  | nonJson : Response
  | json : Json → Response

/-- Base URL of the TfL API. -/
def TFL_BASE_URL : String := "https://api.tfl.gov.uk"

/-- Result of get_tfl_data together with the number of HTTP requests the
call issued (0 when it failed before reaching the transport). -/
structure FetchOutcome where
  result : Except TflError (List Json)
  networkCalls : Nat
deriving Repr

/-- Embedding of get_tfl_data (src/etl/extract_tfl.py).  Credentials are
resolved with Python `or` from the explicit argument and the environment
(env models os.getenv); a falsy credential raises ValueError before the
transport is touched.  The transport outcome for the single GET is the
explicit `tr` parameter; the timeout is forwarded to the transport and not
otherwise consulted, so it is not modelled. -/
def get_tfl_data (stop_point_id : String) (app_id app_key : Option String)
    (env : String → Option String) (tr : Response) : FetchOutcome :=
  let appId := pyOr app_id (env "TFL_APP_ID")
  let appKey := pyOr app_key (env "TFL_APP_KEY")
  if !pyTruthyStr appId || !pyTruthyStr appKey then
    ⟨.error (.configurationError "Missing TfL credentials (TFL_APP_ID/TFL_APP_KEY)."), 0⟩
  else
    match tr with
    | .transportError => ⟨.error (.fetchError "Failed to fetch data from TfL API"), 1⟩
    | .nonJson => ⟨.error (.fetchError "TfL API did not return JSON."), 1⟩
    | .json (.arr xs) => ⟨.ok xs, 1⟩
    | .json v => ⟨.error (.fetchError ("Unexpected TfL response type: " ++ v.pyTypeName)), 1⟩

/-- Comma-join, the serialization ",".join(xs) applied to each present
filter of get_line_routes. -/
def commaJoin (xs : List String) : String := String.intercalate "," xs

/-- Query parameters contributed by one optional filter of
get_line_routes: the code adds `params[key] = ",".join(filt)` only when
`filt` is truthy (a non-None, non-empty list). -/
def filterParam (key : String) (filt : Option (List String)) : List (String × String) :=
  match filt with
  | some (x :: xs) => [(key, commaJoin (x :: xs))]
  | _ => []

/-- The params dict built by get_line_routes, in insertion order. -/
def line_routes_params (line_ids service_types modes : Option (List String)) :
    List (String × String) :=
  filterParam "ids" line_ids ++ filterParam "serviceTypes" service_types ++
    filterParam "modes" modes

/-- One GET request as issued by get_line_routes: the URL and the query
parameters handed to session.get. -/
structure RoutesRequest where
  url : String
  params : List (String × String)
deriving Repr, DecidableEq

/-- Result of get_line_routes together with the requests issued. -/
structure RoutesOutcome where
  result : Except TflError (List Json)
  requests : List RoutesRequest
deriving Repr

/-- Embedding of get_line_routes (src/etl/extract_tfl.py).  The params
dict is built from the three optional filters, one GET is issued against
/Line/Route, and the body is validated to be a list exactly as in
get_tfl_data, with this endpoint's error messages. -/
def get_line_routes (line_ids service_types modes : Option (List String))
    (tr : Response) : RoutesOutcome :=
  let req : RoutesRequest :=
    ⟨TFL_BASE_URL ++ "/Line/Route", line_routes_params line_ids service_types modes⟩
  match tr with
  | .transportError => ⟨.error (.fetchError "Failed to fetch line routes from TfL API"), [req]⟩
  | .nonJson => ⟨.error (.fetchError "TfL API did not return JSON for line routes."), [req]⟩
  | .json (.arr xs) => ⟨.ok xs, [req]⟩
  | .json v =>
      ⟨.error (.fetchError ("Unexpected TfL line route response type: " ++ v.pyTypeName)), [req]⟩

/-! Tabular projection: model of pandas json_normalize as used by
arrivals_to_dataframe. -/

/-- One decoded arrival record: a JSON object given as its key/value
pairs in insertion order. -/
def JObj := List (String × Json)

mutual

/-- Flattening of one record as pandas json_normalize performs it: a
value that is itself an object is replaced by its own flattened pairs
under dotted-path keys (parent.child); every other value is kept as is.
An empty nested object contributes nothing, as in pandas. -/
def flattenKVs : List (String × Json) → List (String × Json)
  | [] => []
  | (k, v) :: rest => flattenEntry k v ++ flattenKVs rest

/-- Flattened pairs one key/value entry contributes. -/
def flattenEntry : String → Json → List (String × Json)
  | k, Json.obj inner => (flattenKVs inner).map (fun p => (k ++ "." ++ p.1, p.2))
  | k, v => [(k, v)]

end

/-- First occurrence of a key in a flattened record, none when the record
lacks the key.  This is the cell pandas fills for the row; none models
the NaN missing marker. -/
def lookupKV (key : String) : List (String × Json) → Option Json
  | [] => none
  | (k, v) :: rest => if k = key then some v else lookupKV key rest

/-- Deduplication keeping the first occurrence of each name and skipping
names in `seen`: the order in which a DataFrame built from a list of
records accumulates its column union. -/
def dedupFirst (seen : List String) : List String → List String
  | [] => []
  | k :: ks => if k ∈ seen then dedupFirst seen ks else k :: dedupFirst (k :: seen) ks

/-- Tabular result of the projection: column names and, per record, one
row of cells aligned with the columns (none is the missing marker). -/
structure DataFrame where
  columns : List String
  rows : List (List (Option Json))
deriving Repr

/-- Embedding of arrivals_to_dataframe (src/etl/extract_tfl.py): an empty
input yields pd.DataFrame(), the empty table; otherwise
pd.json_normalize(arrivals) yields one row per record over the union of
the flattened keys, with NaN where a record lacks a column's key. -/
def arrivals_to_dataframe (arrivals : List JObj) : DataFrame :=
  if arrivals.isEmpty then ⟨[], []⟩
  else
    let flats := arrivals.map flattenKVs
    let cols := dedupFirst [] (flats.map (fun r => r.map Prod.fst)).flatten
    ⟨cols, flats.map (fun r => cols.map (fun c => lookupKV c r))⟩

/-! Serialization: model of json.dumps(..., ensure_ascii=False), the
serializer upload_line_routes_to_s3 applies to the fetched routes. -/

/-- Decimal digit character for a value below 10. -/
def digitChar : Nat → Char
  | 0 => '0' | 1 => '1' | 2 => '2' | 3 => '3' | 4 => '4'
  | 5 => '5' | 6 => '6' | 7 => '7' | 8 => '8' | _ => '9'

/-- Numeric value of a decimal digit character. -/
def digitVal (c : Char) : Nat := c.toNat - 48

/-- Lower-case hexadecimal digit character for a value below 16, as
Python's json module emits in \\uXXXX escapes. -/
def hexDig : Nat → Char
  | 0 => '0' | 1 => '1' | 2 => '2' | 3 => '3' | 4 => '4'
  | 5 => '5' | 6 => '6' | 7 => '7' | 8 => '8' | 9 => '9'
  | 10 => 'a' | 11 => 'b' | 12 => 'c' | 13 => 'd' | 14 => 'e' | _ => 'f'

/-- Numeric value of a hexadecimal digit character. -/
def hexVal (c : Char) : Nat :=
  if c.toNat ≥ 97 then c.toNat - 87 else c.toNat - 48

/-- Decimal digits of n, most significant first, computed with explicit
fuel (n itself suffices, since n / 10 < n for positive n). -/
def natCharsAux : Nat → Nat → List Char
  | 0, _ => []
  | _, 0 => []
  | fuel + 1, n + 1 =>
      natCharsAux fuel ((n + 1) / 10) ++ [digitChar ((n + 1) % 10)]

/-- Decimal rendering of a natural number, as Python prints it. -/
def natChars (n : Nat) : List Char :=
  if n = 0 then ['0'] else natCharsAux n n

/-- Decimal rendering of an integer, as Python prints it. -/
def intChars (n : Int) : List Char :=
  if n < 0 then '-' :: natChars n.natAbs else natChars n.toNat

/-- Escape sequence json.dumps(ensure_ascii=False) emits for one
character: the quote and backslash are backslash-escaped, the named
control characters use their short escapes, the remaining control
characters (code point below 32) use \\u00XX, and every other character
— all non-ASCII included — passes through verbatim. -/
def escChar (c : Char) : List Char :=
  if c = '"' then ['\\', '"']
  else if c = '\\' then ['\\', '\\']
  else if c = '\n' then ['\\', 'n']
  else if c = '\t' then ['\\', 't']
  else if c = '\r' then ['\\', 'r']
  else if c.toNat = 8 then ['\\', 'b']
  else if c.toNat = 12 then ['\\', 'f']
  else if c.toNat < 32 then
    ['\\', 'u', '0', '0', hexDig (c.toNat / 16), hexDig (c.toNat % 16)]
  else [c]

/-- Escaped body of a JSON string literal. -/
def escChars : List Char → List Char
  | [] => []
  | c :: cs => escChar c ++ escChars cs

/-- Characters of the null keyword. -/
def litNull : List Char := ['n', 'u', 'l', 'l']

/-- Characters of the true keyword. -/
def litTrue : List Char := ['t', 'r', 'u', 'e']

/-- Characters of the false keyword. -/
def litFalse : List Char := ['f', 'a', 'l', 's', 'e']

mutual

/-- Characters of json.dumps(v, ensure_ascii=False) with the default
separators: elements joined by a comma and a space, keys and values
joined by a colon and a space. -/
def dumpsChars : Json → List Char
  | .null => litNull
  | .bool true => litTrue
  | .bool false => litFalse
  | .num n => intChars n
  | .str s => '"' :: (escChars s.data ++ ['"'])
  | .arr xs => '[' :: (dumpsList xs ++ [']'])
  | .obj kvs => lbrace :: (dumpsObj kvs ++ [rbrace])

/-- Comma-and-space-joined renderings of the elements of an array. -/
def dumpsList : List Json → List Char
  | [] => []
  | [x] => dumpsChars x
  | x :: y :: xs => dumpsChars x ++ ',' :: ' ' :: dumpsList (y :: xs)

/-- Comma-and-space-joined renderings of the members of an object. -/
def dumpsObj : List (String × Json) → List Char
  | [] => []
  | [(k, v)] => '"' :: (escChars k.data ++ '"' :: ':' :: ' ' :: dumpsChars v)
  | (k, v) :: m :: kvs =>
      ('"' :: (escChars k.data ++ '"' :: ':' :: ' ' :: dumpsChars v)) ++
        ',' :: ' ' :: dumpsObj (m :: kvs)

end

/-- String form of json.dumps(v, ensure_ascii=False). -/
def json_dumps (v : Json) : String := String.mk (dumpsChars v)

/-! Snapshot uploader: embedding of src/etl/upload_tfl.py. -/

/-- One UTC instant, the fields datetime.utcnow() exposes to strftime. -/
structure UtcTime where
  year : Nat
  month : Nat
  day : Nat
  hour : Nat
  minute : Nat
  second : Nat
deriving Repr

/-- Zero-padding of a decimal rendering to a given width, as the strftime
numeric directives pad their fields. -/
def padZeros (w : Nat) (n : Nat) : String :=
  String.mk (List.replicate (w - (natChars n).length) '0' ++ natChars n)

/-- Rendering of datetime.strftime applied to the format the uploader
uses, percent Y m d, the letter T, percent H M S, the letter Z: the
compact YYYYMMDDTHHMMSSZ timestamp. -/
def strftimeCompact (t : UtcTime) : String :=
  padZeros 4 t.year ++ padZeros 2 t.month ++ padZeros 2 t.day ++ "T" ++
    padZeros 2 t.hour ++ padZeros 2 t.minute ++ padZeros 2 t.second ++ "Z"

/-- Python str.rstrip applied with the slash character: drop every
trailing slash. -/
def rstripSlash (s : String) : String :=
  String.mk ((s.data.reverse.dropWhile (fun c => c = '/')).reverse)

/-- Resolved storage configuration: bucket name, key prefix (empty string
when absent) and optional region. -/
structure S3Config where
  bucketName : String
  keyPfx : String
  region : Option String
deriving Repr

/-- Embedding of the private helper resolving the S3 configuration
(src/etl/upload_tfl.py): bucket from the argument or TFL_S3_BUCKET,
prefix from the argument or TFL_S3_PREFIX defaulting to the empty string,
region from the argument or AWS_DEFAULT_REGION; a falsy bucket raises
ValueError. -/
def _resolve_s3_config (bucket keyPfx awsRegion : Option String)
    (env : String → Option String) : Except TflError S3Config :=
  let bucketName := pyOr bucket (env "TFL_S3_BUCKET")
  let pfx := pyOr keyPfx (some ((env "TFL_S3_PREFIX").getD ""))
  let region := pyOr awsRegion (env "AWS_DEFAULT_REGION")
  if pyTruthyStr bucketName then
    .ok ⟨bucketName.getD "", pfx.getD "", region⟩
  else
    .error (.configurationError "S3 bucket must be provided via argument or TFL_S3_BUCKET env")

/-- Byte buffer handed to the storage client, viewed through the decoded
content it carries.  Modelled from the documented behaviour of external
collaborators: str.encode(utf-8) is injective, so the buffer is carried
as the string it encodes, and the gzip container (Python's gzip module)
is an invertible wrapper around the bytes written into it. -/
inductive Body where
  | plain : String → Body
  | gzipped : String → Body
deriving Repr, DecidableEq

/-- Gzip decompression followed by UTF-8 decoding of a body: inverts the
gzip container, fails on a plain body. -/
def gunzipBody : Body → Option String
  | .plain _ => none
  | .gzipped s => some s

/-- UTF-8 decoding of an uncompressed body, failing on a gzip container. -/
def plainBody : Body → Option String
  | .plain s => some s
  | .gzipped _ => none

/-- One put_object call observed by the storage client. -/
structure PutCall where
  bucket : String
  key : String
  body : Body
deriving Repr, DecidableEq

/-- Result of upload_line_routes_to_s3 together with its observable
effects: whether the route fetch was reached, and the put_object calls
issued. -/
structure UploadOutcome where
  result : Except TflError String
  fetchAttempted : Bool
  puts : List PutCall
deriving Repr

/-- Embedding of upload_line_routes_to_s3 (src/etl/upload_tfl.py).  The
configuration is resolved first (raising before any network activity),
then the routes are fetched through get_line_routes with the transport
outcome `tr` (its exceptions propagate unchanged), then the payload is
serialized, optionally gzip-wrapped, named after the current UTC time
`now`, and uploaded with a single put_object call. -/
def upload_line_routes_to_s3 (bucket keyPfx : Option String)
    (line_ids service_types modes : Option (List String)) (compress : Bool)
    (awsRegion : Option String) (env : String → Option String)
    (tr : Response) (now : UtcTime) : UploadOutcome :=
  match _resolve_s3_config bucket keyPfx awsRegion env with
  | .error e => ⟨.error e, false, []⟩
  | .ok cfg =>
    match (get_line_routes line_ids service_types modes tr).result with
    | .error e => ⟨.error e, true, []⟩
    | .ok routes =>
      let filename :=
        "line-routes-" ++ strftimeCompact now ++ ".json" ++
          (if compress then ".gz" else "")
      let data_bytes : Body :=
        if compress then .gzipped (json_dumps (.arr routes))
        else .plain (json_dumps (.arr routes))
      let object_key :=
        if cfg.keyPfx.isEmpty then filename
        else rstripSlash cfg.keyPfx ++ "/" ++ filename
      ⟨.ok object_key, true, [⟨cfg.bucketName, object_key, data_bytes⟩]⟩

/-! Transport client builder: embedding of _build_session
(src/etl/extract_tfl.py) and of the urllib3 Retry machinery it
configures, modelled from urllib3's documented semantics: total is the
number of retries allowed beyond the initial request, a response is
retried when its method is allowed and its status is in the forcelist,
the backoff before a retry is backoff_factor times 2 to the number of
consecutive errors less one (and zero before the first retry), and with
raise_on_status false an exhausted retry budget returns the last
response instead of raising. -/

/-- Retry configuration as passed to urllib3.util.retry.Retry. -/
structure RetryPolicy where
  total : Nat
  backoff_factor : Rat
  status_forcelist : List Nat
  allowed_methods : List String
  raise_on_status : Bool
deriving Repr

/-- Embedding of _build_session: the session's adapter is determined by
the Retry object built from the two parameters. -/
def _build_session (max_retries : Nat) (backoff_factor : Rat) : RetryPolicy :=
  { total := max_retries
    backoff_factor := backoff_factor
    status_forcelist := [429, 500, 502, 503, 504]
    allowed_methods := ["GET"]
    raise_on_status := false }

/-- Default arguments of _build_session: max_retries 3, backoff_factor
one half. -/
def _build_session_default : RetryPolicy := _build_session 3 (1 / 2)

/-- Whether a received response triggers a retry under the policy:
urllib3's is_retry for status-based retries. -/
def isRetryStatus (p : RetryPolicy) (method : String) (status : Nat) : Bool :=
  p.allowed_methods.contains method && p.status_forcelist.contains status

/-- Number of retries performed from request index i with the given
remaining retry budget, when the n-th issued request receives status
`responses n`. -/
def retriesGo (p : RetryPolicy) (method : String) (responses : Nat → Nat) :
    Nat → Nat → Nat
  | 0, _ => 0
  | budget + 1, i =>
      if isRetryStatus p method (responses i) then
        retriesGo p method responses budget (i + 1) + 1
      else 0

/-- Number of retries a request-cycle performs under the policy. -/
def retriesTaken (p : RetryPolicy) (method : String) (responses : Nat → Nat) : Nat :=
  retriesGo p method responses p.total 0

/-- Total number of HTTP requests issued: the initial request plus the
retries. -/
def requestCount (p : RetryPolicy) (method : String) (responses : Nat → Nat) : Nat :=
  retriesTaken p method responses + 1

/-- What the session hands back to the caller. -/
inductive SessionOutcome where
  | response : Nat → SessionOutcome
  | raised : SessionOutcome
deriving Repr, DecidableEq

/-- Outcome of one session.get under the policy: the status of the last
issued request, or an internally raised MaxRetryError when the budget is
exhausted on a retryable status and raise_on_status is set. -/
def runSession (p : RetryPolicy) (method : String) (responses : Nat → Nat) :
    SessionOutcome :=
  let last := responses (retriesTaken p method responses)
  if isRetryStatus p method last && p.raise_on_status then .raised
  else .response last

/-- Backoff urllib3 sleeps before a retry, as a function of the number of
consecutive errors seen so far: zero before the first retry, then
backoff_factor times 2 to the consecutive-error count less one. -/
def backoffTime (p : RetryPolicy) (consecutiveErrors : Nat) : Rat :=
  if consecutiveErrors ≤ 1 then 0
  else p.backoff_factor * 2 ^ (consecutiveErrors - 1)

/-! Deserialization: a JSON parser modelling json.loads on the document
class the pipeline produces (objects, arrays, strings with the standard
escapes, integers, booleans, null), used to state round-trip fidelity of
the uploaded snapshot. -/

/-- Whitespace as the JSON grammar allows between tokens. -/
def isWsChar (c : Char) : Bool :=
  c = ' ' || c = '\n' || c = '\t' || c = '\r'

/-- Dropping of leading inter-token whitespace. -/
def skipWs (cs : List Char) : List Char := cs.dropWhile isWsChar

/-- Consuming an expected literal tail, such as the ull of null. -/
def dropLit : List Char → List Char → Option (List Char)
  | [], cs => some cs
  | l :: ls, c :: cs => if c = l then dropLit ls cs else none
  | _ :: _, [] => none

/-- Hexadecimal digit recognizer for the digits this development emits:
decimal digits and lower-case letters a to f. -/
def hexDigitB (c : Char) : Bool :=
  c.isDigit || (97 ≤ c.toNat && c.toNat ≤ 102)

mutual

/-- Body of a JSON string literal after its opening quote: the decoded
characters up to the closing quote, and the unconsumed tail. -/
def parseStrBody : List Char → Option (List Char × List Char)
  | [] => none
  | c :: cs =>
    if c = '"' then some ([], cs)
    else if c = '\\' then parseEsc cs
    else (parseStrBody cs).map (fun r => (c :: r.1, r.2))

/-- Escape sequence after a backslash inside a string literal. -/
def parseEsc : List Char → Option (List Char × List Char)
  | [] => none
  | e :: cs2 =>
    if e = '"' then (parseStrBody cs2).map (fun r => ('"' :: r.1, r.2))
    else if e = '\\' then (parseStrBody cs2).map (fun r => ('\\' :: r.1, r.2))
    else if e = '/' then (parseStrBody cs2).map (fun r => ('/' :: r.1, r.2))
    else if e = 'n' then (parseStrBody cs2).map (fun r => ('\n' :: r.1, r.2))
    else if e = 't' then (parseStrBody cs2).map (fun r => ('\t' :: r.1, r.2))
    else if e = 'r' then (parseStrBody cs2).map (fun r => ('\r' :: r.1, r.2))
    else if e = 'b' then (parseStrBody cs2).map (fun r => (Char.ofNat 8 :: r.1, r.2))
    else if e = 'f' then (parseStrBody cs2).map (fun r => (Char.ofNat 12 :: r.1, r.2))
    else if e = 'u' then parseHex4 cs2
    else none

/-- Four-hex-digit escape payload. -/
def parseHex4 : List Char → Option (List Char × List Char)
  | h1 :: h2 :: h3 :: h4 :: cs3 =>
    if hexDigitB h1 && hexDigitB h2 && hexDigitB h3 && hexDigitB h4 then
      (parseStrBody cs3).map (fun r =>
        (Char.ofNat (((hexVal h1 * 16 + hexVal h2) * 16 + hexVal h3) * 16 + hexVal h4)
          :: r.1, r.2))
    else none
  | _ => none

end

/-- Greedy parse of an unsigned decimal integer. -/
def parseNatNum (cs : List Char) : Option (Nat × List Char) :=
  let ds := cs.takeWhile Char.isDigit
  if ds.isEmpty then none
  else some (ds.foldl (fun a c => 10 * a + digitVal c) 0, cs.dropWhile Char.isDigit)

mutual

/-- Parse of one JSON value after optional leading whitespace, with
explicit fuel bounding the nesting the parser will enter. -/
def parseVal : Nat → List Char → Option (Json × List Char)
  | 0, _ => none
  | fuel + 1, cs =>
    match skipWs cs with
    | [] => none
    | c :: rest => parseValHead fuel c rest

/-- Dispatch on the first significant character of a value. -/
def parseValHead : Nat → Char → List Char → Option (Json × List Char)
  | fuel, c, rest =>
      if c = 'n' then (dropLit ['u', 'l', 'l'] rest).map (fun r => (Json.null, r))
      else if c = 't' then (dropLit ['r', 'u', 'e'] rest).map (fun r => (Json.bool true, r))
      else if c = 'f' then (dropLit ['a', 'l', 's', 'e'] rest).map (fun r => (Json.bool false, r))
      else if c = '"' then
        (parseStrBody rest).map (fun r => (Json.str (String.mk r.1), r.2))
      else if c = '[' then
        match skipWs rest with
        | [] => none
        | c2 :: r2 =>
          if c2 = ']' then some (Json.arr [], r2)
          else (parseElems fuel (c2 :: r2)).map (fun r => (Json.arr r.1, r.2))
      else if c = lbrace then
        match skipWs rest with
        | [] => none
        | c2 :: r2 =>
          if c2 = rbrace then some (Json.obj [], r2)
          else (parseMembers fuel (c2 :: r2)).map (fun r => (Json.obj r.1, r.2))
      else if c = '-' then
        (parseNatNum rest).map (fun r => (Json.num (-(r.1 : Int)), r.2))
      else if c.isDigit then
        (parseNatNum (c :: rest)).map (fun r => (Json.num (r.1 : Int), r.2))
      else none

/-- Parse of the comma-separated elements of a non-empty array, up to and
including the closing bracket. -/
def parseElems : Nat → List Char → Option (List Json × List Char)
  | 0, _ => none
  | fuel + 1, cs =>
    (parseVal fuel cs).bind (fun r => parseElemsTail fuel r.1 (skipWs r.2))

/-- Continuation after one array element: a comma and more elements, or
the closing bracket. -/
def parseElemsTail : Nat → Json → List Char → Option (List Json × List Char)
  | _, _, [] => none
  | fuel, v, c :: cs2 =>
      if c = ',' then (parseElems fuel cs2).map (fun r => (v :: r.1, r.2))
      else if c = ']' then some ([v], cs2)
      else none

/-- Parse of the comma-separated members of a non-empty object, up to and
including the closing brace. -/
def parseMembers : Nat → List Char → Option (List (String × Json) × List Char)
  | 0, _ => none
  | fuel + 1, cs =>
    match skipWs cs with
    | [] => none
    | c :: cs1 =>
        if c = '"' then
          (parseStrBody cs1).bind (fun r => parseMemberSep fuel (String.mk r.1) (skipWs r.2))
        else none

/-- Continuation after one member key: the colon and the value. -/
def parseMemberSep : Nat → String → List Char → Option (List (String × Json) × List Char)
  | _, _, [] => none
  | fuel, k, c :: cs3 =>
      if c = ':' then (parseVal fuel cs3).bind (fun r => parseMemberTail fuel k r.1 (skipWs r.2))
      else none

/-- Continuation after one member: a comma and more members, or the
closing brace. -/
def parseMemberTail : Nat → String → Json → List Char →
    Option (List (String × Json) × List Char)
  | _, _, _, [] => none
  | fuel, k, v, c :: cs5 =>
      if c = ',' then (parseMembers fuel cs5).map (fun r => ((k, v) :: r.1, r.2))
      else if c = rbrace then some ([(k, v)], cs5)
      else none

end

/-- Model of json.loads: parse one value, then require only whitespace to
remain.  The fuel is one more than the input length, which suffices for
every serializer output (sizeJ below bounds the fuel a document needs). -/
def json_loads (s : String) : Option Json :=
  match parseVal (s.length + 1) s.data with
  | some (v, rest) => if (skipWs rest).isEmpty then some v else none
  | none => none

mutual

/-- Fuel a document needs in parseVal. -/
def sizeJ : Json → Nat
  | .arr xs => 1 + sizeJL xs
  | .obj kvs => 1 + sizeJO kvs
  | _ => 1

/-- Fuel an array's element list needs in parseElems. -/
def sizeJL : List Json → Nat
  | [] => 1
  | x :: xs => sizeJ x + sizeJL xs

/-- Fuel an object's member list needs in parseMembers. -/
def sizeJO : List (String × Json) → Nat
  | [] => 1
  | kv :: kvs => sizeJ kv.2 + sizeJO kvs

end

/-- First binding of a key in a query-parameter list, none when the key
is absent: how a request carries (or omits) each filter. -/
def lookupParam (key : String) : List (String × String) → Option String
  | [] => none
  | (k, v) :: rest => if k = key then some v else lookupParam key rest

/-- Whether a character stream does not begin with a decimal digit: the
guard under which a greedy number parse cannot run into the stream. -/
def notDigitStart : List Char → Bool
  | [] => true
  | c :: _ => !c.isDigit

/-! Supporting lemmas. -/

/-- Appending the empty string on the right is the identity. -/
theorem str_append_empty (s : String) : s ++ "" = s := by
  cases s with
  | mk l => exact congrArg String.mk (List.append_nil l)

/-! Claims C2, C3: configuration failures happen before any network
activity. -/

/-- C2: in get_tfl_data each credential is resolved argument-first and
environment-second, and when either credential resolves to a falsy value
the call fails with the ConfigurationError (ValueError) about missing
TfL credentials and issues no network request. -/
theorem claimC2_missing_credentials_no_network (stop : String)
    (app_id app_key : Option String) (env : String → Option String) (tr : Response)
    (habsent : pyTruthyStr (pyOr app_id (env "TFL_APP_ID")) = false ∨
      pyTruthyStr (pyOr app_key (env "TFL_APP_KEY")) = false) :
    (∀ a b : Option String, pyTruthyStr a = true → pyOr a b = a) ∧
    (get_tfl_data stop app_id app_key env tr).result =
      .error (.configurationError "Missing TfL credentials (TFL_APP_ID/TFL_APP_KEY).") ∧
    (get_tfl_data stop app_id app_key env tr).networkCalls = 0 := by
  refine ⟨fun a b ha => by simp [pyOr, ha], ?_, ?_⟩ <;>
  · unfold get_tfl_data
    rcases habsent with h | h <;> simp [h]

/-- Witness for C2 at a concrete input: explicit app_id absent, app_key
given, empty environment. -/
theorem claimC2_witness :
    (get_tfl_data "490008660N" none (some "key") (fun _ => none) (.json (.arr []))).result =
      .error (.configurationError "Missing TfL credentials (TFL_APP_ID/TFL_APP_KEY).") ∧
    (get_tfl_data "490008660N" none (some "key") (fun _ => none) (.json (.arr []))).networkCalls = 0 := by
  have h := claimC2_missing_credentials_no_network "490008660N" none (some "key")
    (fun _ => none) (.json (.arr [])) (Or.inl rfl)
  exact ⟨h.2.1, h.2.2⟩

/-- C3: when no bucket is resolvable from the argument or TFL_S3_BUCKET,
upload_line_routes_to_s3 fails with the ConfigurationError (ValueError)
about the missing bucket, without attempting the route fetch and without
invoking the storage client. -/
theorem claimC3_missing_bucket_no_network (bucket keyPfx awsRegion : Option String)
    (line_ids service_types modes : Option (List String)) (compress : Bool)
    (env : String → Option String) (tr : Response) (now : UtcTime)
    (habsent : pyTruthyStr (pyOr bucket (env "TFL_S3_BUCKET")) = false) :
    (upload_line_routes_to_s3 bucket keyPfx line_ids service_types modes compress
        awsRegion env tr now).result =
      .error (.configurationError "S3 bucket must be provided via argument or TFL_S3_BUCKET env") ∧
    (upload_line_routes_to_s3 bucket keyPfx line_ids service_types modes compress
        awsRegion env tr now).fetchAttempted = false ∧
    (upload_line_routes_to_s3 bucket keyPfx line_ids service_types modes compress
        awsRegion env tr now).puts = [] := by
  unfold upload_line_routes_to_s3 _resolve_s3_config
  simp [habsent]

/-- Witness for C3 at a concrete input: no bucket argument, empty
environment. -/
theorem claimC3_witness :
    (upload_line_routes_to_s3 none none none none none true none (fun _ => none)
        (.json (.arr [])) ⟨2026, 10, 12, 0, 0, 0⟩).result =
      .error (.configurationError "S3 bucket must be provided via argument or TFL_S3_BUCKET env") ∧
    (upload_line_routes_to_s3 none none none none none true none (fun _ => none)
        (.json (.arr [])) ⟨2026, 10, 12, 0, 0, 0⟩).fetchAttempted = false ∧
    (upload_line_routes_to_s3 none none none none none true none (fun _ => none)
        (.json (.arr [])) ⟨2026, 10, 12, 0, 0, 0⟩).puts = [] :=
  claimC3_missing_bucket_no_network none none none none none none true (fun _ => none)
    (.json (.arr [])) ⟨2026, 10, 12, 0, 0, 0⟩ rfl

/-! Claim C9: an explicitly empty filter list behaves exactly as an
absent filter. -/

/-- C9: for each of the three filters and every choice of the other
arguments, calling get_line_routes with the explicitly empty list
produces the same request and the same outcome as calling it with the
filter absent. -/
theorem claimC9_empty_filter_equals_absent :
    (∀ (sts mds : Option (List String)) (tr : Response),
      get_line_routes (some []) sts mds tr = get_line_routes none sts mds tr) ∧
    (∀ (lids mds : Option (List String)) (tr : Response),
      get_line_routes lids (some []) mds tr = get_line_routes lids none mds tr) ∧
    (∀ (lids sts : Option (List String)) (tr : Response),
      get_line_routes lids sts (some []) tr = get_line_routes lids sts none tr) := by
  refine ⟨?_, ?_, ?_⟩ <;> intro a1 a2 tr <;> rfl

/-! Claims C5, C10: the snapshot uploader's key computation and its
behaviour on fetch failure. -/

/-- C5: on a successful upload the returned object key is the trailing
slash trimmed prefix, a slash and the filename when the resolved prefix
is non-empty, and the filename alone when it is empty, the filename
being line-routes-, the compact UTC timestamp, .json, and .gz exactly
when compress is set. -/
theorem claimC5_object_key_shape (bucket keyPfx awsRegion : Option String)
    (line_ids service_types modes : Option (List String)) (compress : Bool)
    (env : String → Option String) (routes : List Json) (now : UtcTime) (cfg : S3Config)
    (hres : _resolve_s3_config bucket keyPfx awsRegion env = .ok cfg) :
    (cfg.keyPfx = "" →
      (upload_line_routes_to_s3 bucket keyPfx line_ids service_types modes compress
          awsRegion env (.json (.arr routes)) now).result =
        .ok ("line-routes-" ++ strftimeCompact now ++ ".json" ++
          (if compress then ".gz" else ""))) ∧
    (cfg.keyPfx ≠ "" →
      (upload_line_routes_to_s3 bucket keyPfx line_ids service_types modes compress
          awsRegion env (.json (.arr routes)) now).result =
        .ok (rstripSlash cfg.keyPfx ++ "/" ++ ("line-routes-" ++ strftimeCompact now ++
          ".json" ++ (if compress then ".gz" else "")))) := by
  unfold upload_line_routes_to_s3
  rw [hres]
  constructor <;> intro h <;>
    simp [get_line_routes, h, String.isEmpty_iff]

/-- Witness for C5 at concrete inputs: a bucket from the environment, a
prefix with a trailing slash, compression on. -/
theorem claimC5_witness :
    (upload_line_routes_to_s3 (some "bkt") (some "tfl/") none none none true none
        (fun _ => none) (.json (.arr [])) ⟨2026, 10, 12, 3, 4, 5⟩).result =
      .ok ("tfl" ++ "/" ++ ("line-routes-" ++ strftimeCompact ⟨2026, 10, 12, 3, 4, 5⟩ ++
        ".json" ++ (if true then ".gz" else ""))) := by
  have h := claimC5_object_key_shape (some "bkt") (some "tfl/") none none none none true
    (fun _ => none) [] ⟨2026, 10, 12, 3, 4, 5⟩ ⟨"bkt", "tfl/", none⟩ rfl
  exact h.2 (by decide)

/-- C10: when the route fetch fails, upload_line_routes_to_s3 propagates
that error unchanged, and the storage client is never invoked: no object
is put. -/
theorem claimC10_fetch_error_propagates (bucket keyPfx awsRegion : Option String)
    (line_ids service_types modes : Option (List String)) (compress : Bool)
    (env : String → Option String) (tr : Response) (now : UtcTime) (cfg : S3Config)
    (e : TflError)
    (hres : _resolve_s3_config bucket keyPfx awsRegion env = .ok cfg)
    (hfetch : (get_line_routes line_ids service_types modes tr).result = .error e) :
    (upload_line_routes_to_s3 bucket keyPfx line_ids service_types modes compress
        awsRegion env tr now).result = .error e ∧
    (upload_line_routes_to_s3 bucket keyPfx line_ids service_types modes compress
        awsRegion env tr now).puts = [] ∧
    (upload_line_routes_to_s3 bucket keyPfx line_ids service_types modes compress
        awsRegion env tr now).fetchAttempted = true := by
  unfold upload_line_routes_to_s3
  rw [hres, hfetch]
  exact ⟨rfl, rfl, rfl⟩

/-- Witness for C10 at a concrete input: a non-list transport body. -/
theorem claimC10_witness :
    (upload_line_routes_to_s3 (some "bkt") none none none none true none
        (fun _ => none) (.json (.obj [])) ⟨2026, 1, 2, 3, 4, 5⟩).result =
      .error (.fetchError "Unexpected TfL line route response type: dict") ∧
    (upload_line_routes_to_s3 (some "bkt") none none none none true none
        (fun _ => none) (.json (.obj [])) ⟨2026, 1, 2, 3, 4, 5⟩).puts = [] ∧
    (upload_line_routes_to_s3 (some "bkt") none none none none true none
        (fun _ => none) (.json (.obj [])) ⟨2026, 1, 2, 3, 4, 5⟩).fetchAttempted = true := by
  have h := claimC10_fetch_error_propagates (some "bkt") none none none none none true
    (fun _ => none) (.json (.obj [])) ⟨2026, 1, 2, 3, 4, 5⟩ ⟨"bkt", "", none⟩
    (.fetchError "Unexpected TfL line route response type: dict") rfl rfl
  exact h

/-! Claim C4: serialization of the three optional filters. -/

/-- Lookup of a key skips a parameter block carrying a different key. -/
theorem lookupParam_filterParam_ne {key key2 : String} (h : key2 ≠ key)
    (filt : Option (List String)) : lookupParam key (filterParam key2 filt) = none := by
  rcases filt with _ | (_ | ⟨a, l⟩) <;> simp [filterParam, lookupParam, h]

/-- Lookup distributes over an appended block whose keys all miss. -/
theorem lookupParam_append_none {key : String} {a : List (String × String)}
    (h : lookupParam key a = none) (b : List (String × String)) :
    lookupParam key (a ++ b) = lookupParam key b := by
  induction a with
  | nil => simp
  | cons kv rest ih =>
      obtain ⟨k, v⟩ := kv
      by_cases hk : k = key
      · simp [lookupParam, hk] at h
      · simp only [lookupParam, hk, if_neg] at h ⊢
        simp [List.cons_append, lookupParam, hk, ih h]

/-- Lookup returns the first hit also through an appended tail. -/
theorem lookupParam_append_some {key : String} {a : List (String × String)}
    {v : String} (h : lookupParam key a = some v) (b : List (String × String)) :
    lookupParam key (a ++ b) = some v := by
  induction a with
  | nil => simp [lookupParam] at h
  | cons kv rest ih =>
      obtain ⟨k, w⟩ := kv
      by_cases hk : k = key
      · simp only [lookupParam, hk, if_pos] at h ⊢
        simpa [List.cons_append, lookupParam] using h
      · simp only [lookupParam, hk, if_neg] at h ⊢
        simp [List.cons_append, lookupParam, hk, ih h]

/-- Keys appearing in one filter's block are that filter's key. -/
theorem mem_map_fst_filterParam {k key2 : String} {filt : Option (List String)}
    (h : k ∈ (filterParam key2 filt).map Prod.fst) : k = key2 := by
  rcases filt with _ | (_ | ⟨a, l⟩) <;> simp [filterParam] at h
  exact h

/-- C4: each present non-empty filter of get_line_routes is serialized
comma-joined under its own query key, each absent filter contributes no
query key at all, and the three filters are independent: what a key
carries depends only on its own filter. -/
theorem claimC4_filter_serialization (line_ids service_types modes : Option (List String)) :
    (∀ l, line_ids = some l → l ≠ [] →
      lookupParam "ids" (line_routes_params line_ids service_types modes) =
        some (commaJoin l)) ∧
    (line_ids = none →
      "ids" ∉ (line_routes_params line_ids service_types modes).map Prod.fst) ∧
    (∀ l, service_types = some l → l ≠ [] →
      lookupParam "serviceTypes" (line_routes_params line_ids service_types modes) =
        some (commaJoin l)) ∧
    (service_types = none →
      "serviceTypes" ∉ (line_routes_params line_ids service_types modes).map Prod.fst) ∧
    (∀ l, modes = some l → l ≠ [] →
      lookupParam "modes" (line_routes_params line_ids service_types modes) =
        some (commaJoin l)) ∧
    (modes = none →
      "modes" ∉ (line_routes_params line_ids service_types modes).map Prod.fst) ∧
    (∀ sts2 mds2, lookupParam "ids" (line_routes_params line_ids service_types modes) =
      lookupParam "ids" (line_routes_params line_ids sts2 mds2)) ∧
    (∀ lids2 mds2,
      lookupParam "serviceTypes" (line_routes_params line_ids service_types modes) =
        lookupParam "serviceTypes" (line_routes_params lids2 service_types mds2)) ∧
    (∀ lids2 sts2, lookupParam "modes" (line_routes_params line_ids service_types modes) =
      lookupParam "modes" (line_routes_params lids2 sts2 modes)) := by
  have hids : ∀ s m, lookupParam "ids" (line_routes_params line_ids s m) =
      lookupParam "ids" (filterParam "ids" line_ids) := by
    intro s m
    rw [line_routes_params, List.append_assoc]
    rcases hl : lookupParam "ids" (filterParam "ids" line_ids) with _ | v
    · rw [lookupParam_append_none hl,
        lookupParam_append_none (@lookupParam_filterParam_ne "ids" "serviceTypes" (by decide) s),
        @lookupParam_filterParam_ne "ids" "modes" (by decide) m]
    · rw [lookupParam_append_some hl]
  have hsts : ∀ lids m, lookupParam "serviceTypes" (line_routes_params lids service_types m) =
      lookupParam "serviceTypes" (filterParam "serviceTypes" service_types) := by
    intro lids m
    rw [line_routes_params, List.append_assoc,
      lookupParam_append_none (@lookupParam_filterParam_ne "serviceTypes" "ids" (by decide) lids)]
    rcases hl : lookupParam "serviceTypes" (filterParam "serviceTypes" service_types)
      with _ | v
    · rw [lookupParam_append_none hl,
        @lookupParam_filterParam_ne "serviceTypes" "modes" (by decide) m]
    · rw [lookupParam_append_some hl]
  have hmds : ∀ lids s, lookupParam "modes" (line_routes_params lids s modes) =
      lookupParam "modes" (filterParam "modes" modes) := by
    intro lids s
    rw [line_routes_params, List.append_assoc,
      lookupParam_append_none (@lookupParam_filterParam_ne "modes" "ids" (by decide) lids),
      lookupParam_append_none
        (@lookupParam_filterParam_ne "modes" "serviceTypes" (by decide) s)]
  refine ⟨?_, ?_, ?_, ?_, ?_, ?_, ?_, ?_, ?_⟩
  · rintro l rfl hl
    rw [hids service_types modes]
    rcases l with _ | ⟨a, l⟩
    · exact absurd rfl hl
    · simp [filterParam, lookupParam]
  · rintro rfl hmem
    rw [line_routes_params] at hmem
    simp only [List.map_append, List.mem_append] at hmem
    rcases hmem with (h | h) | h
    · simp [filterParam] at h
    · exact absurd (mem_map_fst_filterParam h) (by decide)
    · exact absurd (mem_map_fst_filterParam h) (by decide)
  · rintro l rfl hl
    rw [hsts line_ids modes]
    rcases l with _ | ⟨a, l⟩
    · exact absurd rfl hl
    · simp [filterParam, lookupParam]
  · rintro rfl hmem
    rw [line_routes_params] at hmem
    simp only [List.map_append, List.mem_append] at hmem
    rcases hmem with (h | h) | h
    · exact absurd (mem_map_fst_filterParam h) (by decide)
    · simp [filterParam] at h
    · exact absurd (mem_map_fst_filterParam h) (by decide)
  · rintro l rfl hl
    rw [hmds line_ids service_types]
    rcases l with _ | ⟨a, l⟩
    · exact absurd rfl hl
    · simp [filterParam, lookupParam]
  · rintro rfl hmem
    rw [line_routes_params] at hmem
    simp only [List.map_append, List.mem_append] at hmem
    rcases hmem with (h | h) | h
    · exact absurd (mem_map_fst_filterParam h) (by decide)
    · exact absurd (mem_map_fst_filterParam h) (by decide)
    · simp [filterParam] at h
  · intro sts2 mds2
    rw [hids service_types modes, hids sts2 mds2]
  · intro lids2 mds2
    rw [hsts line_ids modes, hsts lids2 mds2]
  · intro lids2 sts2
    rw [hmds line_ids service_types, hmds lids2 sts2]

/-- Witness for C4 at the spec's example: line_ids 1 and 2 present,
service_types absent, modes present. -/
theorem claimC4_witness :
    lookupParam "ids" (line_routes_params (some ["1", "2"]) none (some ["bus"])) =
      some (commaJoin ["1", "2"]) ∧
    "serviceTypes" ∉
      (line_routes_params (some ["1", "2"]) none (some ["bus"])).map Prod.fst := by
  have h := claimC4_filter_serialization (some ["1", "2"]) none (some ["bus"])
  exact ⟨h.1 ["1", "2"] rfl (by decide), h.2.2.2.1 rfl⟩

/-! Claim C1: non-list JSON bodies are fatal shape errors carrying the
observed type name; list bodies are returned unchanged. -/

/-- C1: when the decoded body of either fetch endpoint is not a list,
get_tfl_data and get_line_routes fail with a FetchError whose message
contains the observed Python type name, and when it is a list both
return it unchanged. -/
theorem claimC1_nonlist_is_fatal (stop : String) (app_id app_key : Option String)
    (env : String → Option String) (line_ids service_types modes : Option (List String))
    (v : Json) (xs : List Json)
    (hid : pyTruthyStr (pyOr app_id (env "TFL_APP_ID")) = true)
    (hkey : pyTruthyStr (pyOr app_key (env "TFL_APP_KEY")) = true)
    (hv : ∀ ys, v ≠ Json.arr ys) :
    (∃ m, (get_tfl_data stop app_id app_key env (.json v)).result =
        .error (.fetchError m) ∧ ∃ p q, m = p ++ v.pyTypeName ++ q) ∧
    (∃ m, (get_line_routes line_ids service_types modes (.json v)).result =
        .error (.fetchError m) ∧ ∃ p q, m = p ++ v.pyTypeName ++ q) ∧
    (get_tfl_data stop app_id app_key env (.json (.arr xs))).result = .ok xs ∧
    (get_line_routes line_ids service_types modes (.json (.arr xs))).result = .ok xs := by
  refine ⟨?_, ?_, by simp [get_tfl_data, hid, hkey], rfl⟩
  · refine ⟨"Unexpected TfL response type: " ++ v.pyTypeName, ?_,
      "Unexpected TfL response type: ", "", (str_append_empty _).symm⟩
    cases v with
    | arr ys => exact absurd rfl (hv ys)
    | _ => simp [get_tfl_data, hid, hkey]
  · refine ⟨"Unexpected TfL line route response type: " ++ v.pyTypeName, ?_,
      "Unexpected TfL line route response type: ", "", (str_append_empty _).symm⟩
    cases v with
    | arr ys => exact absurd rfl (hv ys)
    | _ => rfl

/-- Witness for C1 at the spec's example body, a JSON object: the
message carries the type name dict, and a list body is returned as is. -/
theorem claimC1_witness :
    (∃ m, (get_tfl_data "490008660N" (some "id") (some "key") (fun _ => none)
        (.json (.obj [("error", .str "bad request")]))).result =
        .error (.fetchError m) ∧
      ∃ p q, m = p ++ (Json.obj [("error", .str "bad request")]).pyTypeName ++ q) ∧
    (∃ m, (get_line_routes none none none
        (.json (.obj [("error", .str "bad request")]))).result =
        .error (.fetchError m) ∧
      ∃ p q, m = p ++ (Json.obj [("error", .str "bad request")]).pyTypeName ++ q) ∧
    (get_tfl_data "490008660N" (some "id") (some "key") (fun _ => none)
        (.json (.arr [.num 1]))).result = .ok [.num 1] ∧
    (get_line_routes none none none (.json (.arr [.num 1]))).result = .ok [.num 1] :=
  claimC1_nonlist_is_fatal "490008660N" (some "id") (some "key") (fun _ => none)
    none none none (.obj [("error", .str "bad request")]) [.num 1] rfl rfl
    (fun ys h => Json.noConfusion h)

/-! Claim C8: the retry policy _build_session configures.  The claim as
frozen says total ATTEMPTS are capped at max_retries; urllib3's total
caps the RETRIES, so with the default max_retries of 3 a fully failing
GET issues 4 requests.  The counterexample records this; the theorem
proves the policy with the cap stated on retries. -/

/-- The retry loop performs at most as many retries as its budget. -/
theorem retriesGo_le (p : RetryPolicy) (method : String) (responses : Nat → Nat) :
    ∀ budget i, retriesGo p method responses budget i ≤ budget := by
  intro budget
  induction budget with
  | zero => intro i; simp [retriesGo]
  | succ b ih =>
      intro i
      rw [retriesGo]
      split
      · exact Nat.succ_le_succ (ih (i + 1))
      · exact Nat.zero_le _

/-- A request whose first response is not retryable performs no retry. -/
theorem retriesGo_of_not_retry {p : RetryPolicy} {method : String}
    {responses : Nat → Nat} {i : Nat}
    (h : isRetryStatus p method (responses i) = false) :
    ∀ budget, retriesGo p method responses budget i = 0 := by
  intro budget
  cases budget with
  | zero => rfl
  | succ b => rw [retriesGo, h]; rfl

/-- Counterexample to C8 as frozen: under the default policy, with every
response a 500, a GET issues 4 requests, exceeding the stated cap of
max_retries = 3 total attempts. -/
theorem claimC8_counterexample :
    requestCount _build_session_default "GET" (fun _ => 500) = 4 ∧
    ¬ requestCount _build_session_default "GET" (fun _ => 500) ≤ 3 := by
  constructor <;> decide

/-- C8 as amended: the session retries exactly on statuses 429, 500,
502, 503, 504 and only for GET, performs at most max_retries retries
(hence at most max_retries + 1 total attempts), sleeps an exponential
backoff seeded by the backoff factor, and on exhaustion yields the last
response to the caller instead of raising; the defaults are 3 and one
half. -/
theorem claimC8_retry_policy (max_retries : Nat) (backoff_factor : Rat) :
    (_build_session max_retries backoff_factor).status_forcelist =
      [429, 500, 502, 503, 504] ∧
    (_build_session max_retries backoff_factor).allowed_methods = ["GET"] ∧
    (∀ m s, isRetryStatus (_build_session max_retries backoff_factor) m s = true ↔
      m = "GET" ∧ (s = 429 ∨ s = 500 ∨ s = 502 ∨ s = 503 ∨ s = 504)) ∧
    (∀ responses m, retriesTaken (_build_session max_retries backoff_factor) m responses ≤
      max_retries) ∧
    (∀ responses m, requestCount (_build_session max_retries backoff_factor) m responses ≤
      max_retries + 1) ∧
    (∀ responses m, (m = "GET" → False) →
      requestCount (_build_session max_retries backoff_factor) m responses = 1) ∧
    (backoffTime (_build_session max_retries backoff_factor) 2 = backoff_factor * 2) ∧
    (∀ n, 2 ≤ n → backoffTime (_build_session max_retries backoff_factor) (n + 1) =
      2 * backoffTime (_build_session max_retries backoff_factor) n) ∧
    (∀ responses m, runSession (_build_session max_retries backoff_factor) m responses =
      .response (responses
        (retriesTaken (_build_session max_retries backoff_factor) m responses))) ∧
    _build_session_default = _build_session 3 (1 / 2) := by
  refine ⟨rfl, rfl, ?_, ?_, ?_, ?_, by norm_num [backoffTime, _build_session], ?_, ?_, rfl⟩
  · intro m s
    simp only [isRetryStatus, _build_session, Bool.and_eq_true, List.contains_eq_any_beq,
      List.any_cons, List.any_nil, Bool.or_eq_true, beq_iff_eq, Bool.or_false]
  · intro responses m
    exact retriesGo_le _ _ _ _ 0
  · intro responses m
    exact Nat.succ_le_succ (retriesGo_le _ _ _ _ 0)
  · intro responses m hm
    have h : isRetryStatus (_build_session max_retries backoff_factor) m (responses 0) =
        false := by
      have hc : (m == "GET") = false := by
        cases hb : m == "GET" with
        | true => exact absurd (eq_of_beq hb) hm
        | false => rfl
      simp only [isRetryStatus, _build_session, List.contains_eq_any_beq, List.any_cons,
        List.any_nil, hc, Bool.false_or, Bool.or_false, Bool.false_and]
    rw [requestCount, retriesTaken, retriesGo_of_not_retry h]
  · intro n hn
    have h1 : ¬ n ≤ 1 := by omega
    have h2 : ¬ n + 1 ≤ 1 := by omega
    rw [backoffTime, backoffTime, if_neg h1, if_neg h2]
    have : n - 1 + 1 = n + 1 - 1 := by omega
    rw [← this, pow_succ, _build_session]
    ring
  · intro responses m
    rw [runSession, _build_session]
    simp

/-- Witness for C8: the non-GET and backoff-doubling components at
concrete inputs. -/
theorem claimC8_witness :
    requestCount (_build_session 3 (1 / 2)) "POST" (fun _ => 500) = 1 ∧
    backoffTime (_build_session 3 (1 / 2)) 3 = 2 * backoffTime (_build_session 3 (1 / 2)) 2 := by
  have h := claimC8_retry_policy 3 (1 / 2)
  exact ⟨h.2.2.2.2.2.1 (fun _ => 500) "POST" (fun hp => by simp at hp),
    h.2.2.2.2.2.2.2.1 2 (le_refl 2)⟩

/-! Claim C7: the tabular projection. -/

/-- Membership in the first-occurrence deduplication: exactly the names
of the input not already seen. -/
theorem mem_dedupFirst : ∀ (l seen : List String) (k : String),
    k ∈ dedupFirst seen l ↔ k ∈ l ∧ k ∉ seen := by
  intro l
  induction l with
  | nil => intro seen k; simp [dedupFirst]
  | cons a l ih =>
      intro seen k
      by_cases ha : a ∈ seen
      · rw [dedupFirst, if_pos ha, ih]
        constructor
        · rintro ⟨hk, hs⟩
          exact ⟨List.mem_cons_of_mem a hk, hs⟩
        · rintro ⟨hk, hs⟩
          rcases List.mem_cons.mp hk with rfl | hk
          · exact absurd ha hs
          · exact ⟨hk, hs⟩
      · rw [dedupFirst, if_neg ha]
        constructor
        · intro hk
          rcases List.mem_cons.mp hk with rfl | hk
          · exact ⟨List.mem_cons_self k l, ha⟩
          · obtain ⟨h1, h2⟩ := (ih (a :: seen) k).mp hk
            refine ⟨List.mem_cons_of_mem a h1, fun hs => h2 (List.mem_cons_of_mem a hs)⟩
        · rintro ⟨hk, hs⟩
          rcases List.mem_cons.mp hk with rfl | hk
          · exact List.mem_cons_self k _
          · by_cases hka : k = a
            · exact hka ▸ List.mem_cons_self a _
            · exact List.mem_cons_of_mem a ((ih (a :: seen) k).mpr
                ⟨hk, fun h => (List.mem_cons.mp h).elim hka hs⟩)

/-- Lookup misses exactly when the key is not among the record's keys. -/
theorem lookupKV_eq_none {c : String} : ∀ {r : List (String × Json)},
    c ∉ r.map Prod.fst → lookupKV c r = none := by
  intro r
  induction r with
  | nil => intro _; rfl
  | cons kv rest ih =>
      obtain ⟨k, v⟩ := kv
      intro h
      simp only [List.map_cons, List.mem_cons, not_or] at h
      rw [lookupKV, if_neg (fun he => h.1 he.symm)]
      exact ih h.2

/-- C7: arrivals_to_dataframe maps the empty list to the empty table
with no columns; any input yields one row per record, the columns are
exactly the union of the dotted-path flattened keys observed across the
records, each row holds each column's looked-up value for its record,
and a record lacking a column's key gets the defined missing marker
none. -/
theorem claimC7_tabular_projection (arrivals : List JObj) :
    arrivals_to_dataframe [] = ⟨[], []⟩ ∧
    (arrivals_to_dataframe arrivals).rows.length = arrivals.length ∧
    (∀ k, k ∈ (arrivals_to_dataframe arrivals).columns ↔
      ∃ rec ∈ arrivals, k ∈ (flattenKVs rec).map Prod.fst) ∧
    (arrivals_to_dataframe arrivals).rows = arrivals.map (fun rec =>
      (arrivals_to_dataframe arrivals).columns.map (fun c => lookupKV c (flattenKVs rec))) ∧
    (∀ (rec : JObj) (c : String), c ∉ (flattenKVs rec).map Prod.fst →
      lookupKV c (flattenKVs rec) = none) := by
  refine ⟨rfl, ?_, ?_, ?_, fun rec c h => lookupKV_eq_none h⟩
  · rcases harr : arrivals with _ | ⟨r, rs⟩
    · rfl
    · simp [arrivals_to_dataframe]
  · intro k
    rcases harr : arrivals with _ | ⟨r, rs⟩
    · simp [arrivals_to_dataframe]
    · rw [← harr]
      have hne : arrivals.isEmpty = false := by rw [harr]; rfl
      simp only [arrivals_to_dataframe, hne, Bool.false_eq_true, if_false]
      rw [mem_dedupFirst]
      constructor
      · rintro ⟨hk, -⟩
        obtain ⟨l, hl, hkl⟩ := List.mem_flatten.mp hk
        obtain ⟨fl, hfl, rfl⟩ := List.mem_map.mp hl
        obtain ⟨rec, hrec, rfl⟩ := List.mem_map.mp hfl
        exact ⟨rec, hrec, hkl⟩
      · rintro ⟨rec, hrec, hk⟩
        refine ⟨List.mem_flatten.mpr ⟨(flattenKVs rec).map Prod.fst, ?_, hk⟩,
          List.not_mem_nil k⟩
        exact List.mem_map.mpr ⟨flattenKVs rec, List.mem_map.mpr ⟨rec, hrec, rfl⟩, rfl⟩
  · rcases harr : arrivals with _ | ⟨r, rs⟩
    · rfl
    · rw [← harr]
      have hne : arrivals.isEmpty = false := by rw [harr]; rfl
      simp only [arrivals_to_dataframe, hne, Bool.false_eq_true, if_false]
      rw [List.map_map]
      rfl

/-- Witness for C7 at the spec's example: two records, the first lacking
the b key, whose cell is the missing marker none. -/
theorem claimC7_witness :
    (arrivals_to_dataframe ([[("a", .num 1)], [("a", .num 2), ("b", .num 3)]] : List JObj)).rows.length = 2 ∧
    ((arrivals_to_dataframe ([[("a", .num 1)], [("a", .num 2), ("b", .num 3)]] : List JObj)).columns =
      ["a", "b"]) ∧
    ("b" ∉ (flattenKVs [("a", Json.num 1)]).map Prod.fst →
      lookupKV "b" (flattenKVs [("a", Json.num 1)]) = none) := by
  have h := claimC7_tabular_projection ([[("a", .num 1)], [("a", .num 2), ("b", .num 3)]] : List JObj)
  exact ⟨h.2.1, by decide, h.2.2.2.2 [("a", Json.num 1)] "b"⟩

/-! Round-trip of the serialized snapshot (claim C6): supporting lemmas
about digits, decimal renderings, escapes, and the parser. -/

/-- Facts about every decimal digit character the serializer can emit:
it is a digit, its value inverts digitChar, it is not whitespace, and it
is none of the dispatch characters of parseValHead. -/
theorem digitChar_facts : ∀ d, d < 10 → (digitChar d).isDigit = true ∧
    digitVal (digitChar d) = d ∧ isWsChar (digitChar d) = false ∧
    digitChar d ≠ 'n' ∧ digitChar d ≠ 't' ∧ digitChar d ≠ 'f' ∧
    digitChar d ≠ '"' ∧ digitChar d ≠ '[' ∧ digitChar d ≠ lbrace ∧
    digitChar d ≠ '-' ∧ digitChar d ≠ ']' ∧ digitChar d ≠ rbrace := by decide

/-- Facts about every hexadecimal digit character the serializer can
emit in a \\u00XX escape: it passes the recognizer and its value inverts
hexDig. -/
theorem hexDig_facts : ∀ d, d < 16 →
    hexDigitB (hexDig d) = true ∧ hexVal (hexDig d) = d := by decide

/-- Leading whitespace skipping leaves a stream whose head is not
whitespace untouched. -/
theorem skipWs_cons_not_ws {c : Char} (h : isWsChar c = false) (cs : List Char) :
    skipWs (c :: cs) = c :: cs := by
  simp [skipWs, List.dropWhile_cons, h]

/-- Every character of a fuelled decimal rendering is a digit character. -/
theorem natCharsAux_shape : ∀ (fuel n : Nat) (c : Char), c ∈ natCharsAux fuel n →
    ∃ d, d < 10 ∧ c = digitChar d := by
  intro fuel
  induction fuel with
  | zero => intro n c h; simp [natCharsAux] at h
  | succ fuel ih =>
      intro n c h
      cases n with
      | zero => simp [natCharsAux] at h
      | succ n =>
          rw [natCharsAux] at h
          rcases List.mem_append.mp h with h | h
          · exact ih _ _ h
          · rcases List.mem_singleton.mp h with rfl
            exact ⟨(n + 1) % 10, Nat.mod_lt _ (by omega), rfl⟩

/-- Value of a fuelled decimal rendering under the digit fold, with an
arbitrary accumulator. -/
theorem natCharsAux_foldl : ∀ (fuel n a : Nat), n ≤ fuel →
    List.foldl (fun acc c => 10 * acc + digitVal c) a (natCharsAux fuel n) =
      a * 10 ^ (natCharsAux fuel n).length + n := by
  intro fuel
  induction fuel with
  | zero =>
      intro n a hn
      interval_cases n
      simp [natCharsAux]
  | succ fuel ih =>
      intro n a hn
      cases n with
      | zero => simp [natCharsAux]
      | succ n =>
          rw [natCharsAux, List.foldl_append, List.length_append]
          have hq : (n + 1) / 10 ≤ fuel := by
            have := Nat.div_lt_self (Nat.succ_pos n) (by omega : 1 < 10)
            omega
          rw [ih ((n + 1) / 10) a hq]
          have hr : digitVal (digitChar ((n + 1) % 10)) = (n + 1) % 10 :=
            (digitChar_facts ((n + 1) % 10) (Nat.mod_lt _ (by omega))).2.1
          simp only [List.foldl_cons, List.foldl_nil, List.length_cons, List.length_nil]
          rw [hr]
          have hdm := Nat.div_add_mod (n + 1) 10
          set L := (natCharsAux fuel ((n + 1) / 10)).length with hL
          rw [pow_succ, ← mul_assoc]
          set X := a * 10 ^ L with hX
          omega

/-- A decimal rendering is never empty. -/
theorem natChars_ne_nil (n : Nat) : natChars n ≠ [] := by
  rw [natChars]
  rcases n with _ | n
  · simp
  · rw [if_neg (Nat.succ_ne_zero n), natCharsAux]
    simp

/-- Every character of a decimal rendering is a digit character. -/
theorem natChars_shape (n : Nat) (c : Char) (h : c ∈ natChars n) :
    ∃ d, d < 10 ∧ c = digitChar d := by
  rw [natChars] at h
  rcases n with _ | n
  · simp at h
    exact ⟨0, by omega, h⟩
  · rw [if_neg (Nat.succ_ne_zero n)] at h
    exact natCharsAux_shape _ _ _ h

/-- The digit fold recovers the rendered number. -/
theorem natChars_val (n : Nat) :
    List.foldl (fun acc c => 10 * acc + digitVal c) 0 (natChars n) = n := by
  rw [natChars]
  rcases n with _ | n
  · simp; rfl
  · rw [if_neg (Nat.succ_ne_zero n), natCharsAux_foldl _ _ _ (le_refl _)]
    simp

/-- Splitting a takeWhile and dropWhile around an all-true block followed
by a stream whose head falsifies the predicate. -/
theorem takeWhile_dropWhile_append {p : Char → Bool} :
    ∀ (l r : List Char), (∀ c ∈ l, p c = true) →
      (∀ c, r.head? = some c → p c = false) →
      (l ++ r).takeWhile p = l ∧ (l ++ r).dropWhile p = r := by
  intro l
  induction l with
  | nil =>
      intro r _ hr
      rcases r with _ | ⟨c, r⟩
      · exact ⟨rfl, rfl⟩
      · have := hr c rfl
        simp [List.takeWhile_cons, List.dropWhile_cons, this]
  | cons a l ih =>
      intro r hl hr
      have ha := hl a (List.mem_cons_self a l)
      obtain ⟨h1, h2⟩ := ih r (fun c hc => hl c (List.mem_cons_of_mem a hc)) hr
      simp [List.takeWhile_cons, List.dropWhile_cons, ha, h1, h2]

/-- Parsing a rendered natural number followed by a stream that does not
begin with a digit returns the number and that stream. -/
theorem parseNatNum_natChars (n : Nat) (rest : List Char)
    (hr : notDigitStart rest = true) :
    parseNatNum (natChars n ++ rest) = some (n, rest) := by
  have hall : ∀ c ∈ natChars n, c.isDigit = true := by
    intro c hc
    obtain ⟨d, hd, rfl⟩ := natChars_shape n c hc
    exact (digitChar_facts d hd).1
  have hhd : ∀ c, rest.head? = some c → c.isDigit = false := by
    intro c hc
    rcases rest with _ | ⟨r0, rest⟩
    · simp at hc
    · rw [notDigitStart] at hr
      simp at hc
      subst hc
      simpa using hr
  obtain ⟨h1, h2⟩ := takeWhile_dropWhile_append (natChars n) rest hall hhd
  rw [parseNatNum]
  simp only [h1, h2]
  rw [if_neg (by simpa using natChars_ne_nil n)]
  rw [natChars_val]

/-- Unfolding of the string-body parser on a non-empty stream. -/
theorem parseStrBody_cons (c : Char) (cs : List Char) :
    parseStrBody (c :: cs) =
      (if c = '"' then some ([], cs)
       else if c = '\\' then parseEsc cs
       else (parseStrBody cs).map (fun r => (c :: r.1, r.2))) := rfl

/-- Parsing an escaped string body followed by its closing quote decodes
exactly the original characters, leaving the tail unconsumed. -/
theorem parseStrBody_escChars : ∀ (cs rest : List Char),
    parseStrBody (escChars cs ++ '"' :: rest) = some (cs, rest) := by
  intro cs
  induction cs with
  | nil => intro rest; rfl
  | cons c cs ih =>
      intro rest
      rw [escChars, List.append_assoc]
      by_cases h1 : c = '"'
      · subst h1; simp [escChar, parseStrBody_cons, parseEsc, ih]
      by_cases h2 : c = '\\'
      · subst h2; simp [escChar, parseStrBody_cons, parseEsc, ih]
      by_cases h3 : c = '\n'
      · subst h3; simp [escChar, parseStrBody_cons, parseEsc, ih]
      by_cases h4 : c = '\t'
      · subst h4; simp [escChar, parseStrBody_cons, parseEsc, ih]
      by_cases h5 : c = '\r'
      · subst h5; simp [escChar, parseStrBody_cons, parseEsc, ih]
      by_cases h6 : c.toNat = 8
      · have hc : Char.ofNat 8 = c := by rw [← h6, Char.ofNat_toNat]
        rw [escChar, if_neg h1, if_neg h2, if_neg h3, if_neg h4, if_neg h5, if_pos h6]
        simp [parseStrBody_cons, parseEsc, ih]
        exact hc
      by_cases h7 : c.toNat = 12
      · have hc : Char.ofNat 12 = c := by rw [← h7, Char.ofNat_toNat]
        rw [escChar, if_neg h1, if_neg h2, if_neg h3, if_neg h4, if_neg h5, if_neg h6,
          if_pos h7]
        simp [parseStrBody_cons, parseEsc, ih]
        exact hc
      by_cases h8 : c.toNat < 32
      · rw [escChar, if_neg h1, if_neg h2, if_neg h3, if_neg h4, if_neg h5, if_neg h6,
          if_neg h7, if_pos h8]
        have hhi : c.toNat / 16 < 16 := by omega
        have hlo : c.toNat % 16 < 16 := Nat.mod_lt _ (by omega)
        have hbhi := (hexDig_facts _ hhi).1
        have hblo := (hexDig_facts _ hlo).1
        have hvhi := (hexDig_facts _ hhi).2
        have hvlo := (hexDig_facts _ hlo).2
        have h0 : hexVal '0' = 0 := by decide
        simp only [List.cons_append, List.nil_append]
        rw [parseStrBody_cons]
        simp [parseEsc, parseHex4, hbhi, hblo, hvhi, hvlo, h0, ih]
        refine ⟨by decide, ?_⟩
        have hv : c.toNat / 16 * 16 + c.toNat % 16 = c.toNat := by omega
        rw [hv, Char.ofNat_toNat]
      · rw [escChar, if_neg h1, if_neg h2, if_neg h3, if_neg h4, if_neg h5, if_neg h6,
          if_neg h7, if_neg h8]
        simp only [List.cons_append, List.nil_append]
        rw [parseStrBody_cons, if_neg h1, if_neg h2, ih]
        rfl

/-- One leading space is consumed by the value parser. -/
theorem parseVal_space (fuel : Nat) (cs : List Char) :
    parseVal fuel (' ' :: cs) = parseVal fuel cs := by
  cases fuel with
  | zero => simp only [parseVal]
  | succ g => simp only [parseVal]; rfl

/-- One leading space is consumed by the member parser. -/
theorem parseMembers_space (fuel : Nat) (cs : List Char) :
    parseMembers fuel (' ' :: cs) = parseMembers fuel cs := by
  cases fuel with
  | zero => simp only [parseMembers]
  | succ g => simp only [parseMembers]; rfl

/-- One leading space is consumed by the element parser. -/
theorem parseElems_space (fuel : Nat) (cs : List Char) :
    parseElems fuel (' ' :: cs) = parseElems fuel cs := by
  cases fuel with
  | zero => simp only [parseElems]
  | succ g => simp only [parseElems, parseVal_space]

/-- Every serialized value starts with a character that is neither
whitespace nor a closing bracket. -/
theorem dumpsChars_head (v : Json) :
    ∃ c t, dumpsChars v = c :: t ∧ isWsChar c = false ∧ c ≠ ']' := by
  cases v with
  | null => exact ⟨'n', _, rfl, rfl, by decide⟩
  | bool b =>
      cases b with
      | false => exact ⟨'f', _, rfl, rfl, by decide⟩
      | true => exact ⟨'t', _, rfl, rfl, by decide⟩
  | num n =>
      rcases n with m | m
      · have hd : dumpsChars (Json.num (Int.ofNat m)) = natChars m := by
          show intChars (Int.ofNat m) = natChars m
          have hneg : ¬ (Int.ofNat m < 0) := Int.not_lt.mpr (Int.ofNat_nonneg m)
          rw [intChars, if_neg hneg]
          rfl
        rcases hnc : natChars m with _ | ⟨c, t⟩
        · exact absurd hnc (natChars_ne_nil m)
        · have hc : c ∈ natChars m := by rw [hnc]; exact List.mem_cons_self _ _
          obtain ⟨d, hd10, rfl⟩ := natChars_shape m c hc
          have hf := digitChar_facts d hd10
          refine ⟨digitChar d, t, by rw [hd, hnc], hf.2.2.1, ?_⟩
          exact hf.2.2.2.2.2.2.2.2.2.2.1
      · refine ⟨'-', natChars (Int.negSucc m).natAbs, ?_, by decide, by decide⟩
        show intChars (Int.negSucc m) = _
        rw [intChars, if_pos (Int.negSucc_lt_zero m)]
  | str s => exact ⟨'"', _, rfl, rfl, by decide⟩
  | arr xs => exact ⟨'[', _, rfl, rfl, by decide⟩
  | obj kvs => exact ⟨lbrace, _, rfl, by decide, by decide⟩

/-- The rendering of a non-empty element list starts with its first
element's rendering. -/
theorem dumpsList_cons_decomp (x : Json) (xs : List Json) :
    ∃ u, dumpsList (x :: xs) = dumpsChars x ++ u := by
  cases xs with
  | nil => exact ⟨[], (List.append_nil _).symm⟩
  | cons y ys => exact ⟨',' :: ' ' :: dumpsList (y :: ys), rfl⟩

/-- The rendering of a non-empty member list starts with an opening
quote. -/
theorem dumpsObj_cons_decomp (k : String) (v : Json) (kvs : List (String × Json)) :
    ∃ u, dumpsObj ((k, v) :: kvs) = '"' :: u := by
  cases kvs with
  | nil => exact ⟨escChars k.data ++ '"' :: ':' :: ' ' :: dumpsChars v, rfl⟩
  | cons m kvs =>
      refine ⟨(escChars k.data ++ '"' :: ':' :: ' ' :: dumpsChars v) ++
        ',' :: ' ' :: dumpsObj (m :: kvs), ?_⟩
      show ('"' :: (escChars k.data ++ '"' :: ':' :: ' ' :: dumpsChars v)) ++
        ',' :: ' ' :: dumpsObj (m :: kvs) = _
      rw [List.cons_append]

/-- Fuel measures are positive. -/
theorem sizeJ_pos (v : Json) : 1 ≤ sizeJ v := by
  cases v with
  | arr xs => show 1 ≤ 1 + sizeJL xs; omega
  | obj kvs => show 1 ≤ 1 + sizeJO kvs; omega
  | null => exact le_refl 1
  | bool b => exact le_refl 1
  | num n => exact le_refl 1
  | str s => exact le_refl 1

/-- The element-list fuel measure is positive. -/
theorem sizeJL_pos (xs : List Json) : 1 ≤ sizeJL xs := by
  cases xs with
  | nil => exact le_refl 1
  | cons x xs =>
      show 1 ≤ sizeJ x + sizeJL xs
      have := sizeJ_pos x
      omega

/-- The member-list fuel measure is positive. -/
theorem sizeJO_pos (kvs : List (String × Json)) : 1 ≤ sizeJO kvs := by
  cases kvs with
  | nil => exact le_refl 1
  | cons kv kvs =>
      obtain ⟨k, v⟩ := kv
      show 1 ≤ sizeJ v + sizeJO kvs
      have := sizeJ_pos v
      omega

/-- Dispatch of the value parser on the letter n. -/
theorem parseValHead_null (fuel : Nat) (cs : List Char) :
    parseValHead fuel 'n' cs = (dropLit ['u', 'l', 'l'] cs).map (fun r => (Json.null, r)) := by
  simp [parseValHead]

/-- Dispatch of the value parser on the letter t. -/
theorem parseValHead_true (fuel : Nat) (cs : List Char) :
    parseValHead fuel 't' cs =
      (dropLit ['r', 'u', 'e'] cs).map (fun r => (Json.bool true, r)) := by
  simp [parseValHead]

/-- Dispatch of the value parser on the letter f. -/
theorem parseValHead_false (fuel : Nat) (cs : List Char) :
    parseValHead fuel 'f' cs =
      (dropLit ['a', 'l', 's', 'e'] cs).map (fun r => (Json.bool false, r)) := by
  simp [parseValHead]

/-- Dispatch of the value parser on an opening quote. -/
theorem parseValHead_quote (fuel : Nat) (cs : List Char) :
    parseValHead fuel '"' cs =
      (parseStrBody cs).map (fun r => (Json.str (String.mk r.1), r.2)) := by
  simp [parseValHead]

/-- Dispatch of the value parser on an opening bracket. -/
theorem parseValHead_lbrack (fuel : Nat) (cs : List Char) :
    parseValHead fuel '[' cs =
      (match skipWs cs with
       | [] => none
       | c2 :: r2 =>
         if c2 = ']' then some (Json.arr [], r2)
         else (parseElems fuel (c2 :: r2)).map (fun r => (Json.arr r.1, r.2))) := by
  simp [parseValHead]

/-- Dispatch of the value parser on an opening brace. -/
theorem parseValHead_lcurly (fuel : Nat) (cs : List Char) :
    parseValHead fuel lbrace cs =
      (match skipWs cs with
       | [] => none
       | c2 :: r2 =>
         if c2 = rbrace then some (Json.obj [], r2)
         else (parseMembers fuel (c2 :: r2)).map (fun r => (Json.obj r.1, r.2))) := by
  have h1 : lbrace ≠ 'n' := by decide
  have h2 : lbrace ≠ 't' := by decide
  have h3 : lbrace ≠ 'f' := by decide
  have h4 : lbrace ≠ '"' := by decide
  have h5 : lbrace ≠ '[' := by decide
  simp only [parseValHead]
  rw [if_neg h1, if_neg h2, if_neg h3, if_neg h4, if_neg h5]
  simp

/-- Dispatch of the value parser on a minus sign. -/
theorem parseValHead_minus (fuel : Nat) (cs : List Char) :
    parseValHead fuel '-' cs =
      (parseNatNum cs).map (fun r => (Json.num (-(r.1 : Int)), r.2)) := by
  have h1 : ('-' : Char) ≠ 'n' := by decide
  have h2 : ('-' : Char) ≠ 't' := by decide
  have h3 : ('-' : Char) ≠ 'f' := by decide
  have h4 : ('-' : Char) ≠ '"' := by decide
  have h5 : ('-' : Char) ≠ '[' := by decide
  have h6 : ('-' : Char) ≠ lbrace := by decide
  simp only [parseValHead]
  rw [if_neg h1, if_neg h2, if_neg h3, if_neg h4, if_neg h5, if_neg h6]
  simp

/-- Dispatch of the value parser on a decimal digit. -/
theorem parseValHead_digit (fuel : Nat) {c : Char} (cs : List Char)
    (h1 : c ≠ 'n') (h2 : c ≠ 't') (h3 : c ≠ 'f') (h4 : c ≠ '"') (h5 : c ≠ '[')
    (h6 : c ≠ lbrace) (h7 : c ≠ '-') (hd : c.isDigit = true) :
    parseValHead fuel c cs =
      (parseNatNum (c :: cs)).map (fun r => (Json.num (r.1 : Int), r.2)) := by
  simp only [parseValHead]
  rw [if_neg h1, if_neg h2, if_neg h3, if_neg h4, if_neg h5, if_neg h6, if_neg h7,
    if_pos hd]

/-- Round trip of the parser over the serializer: with fuel at least the
document's measure, parsing a serialized value followed by a stream that
does not begin with a digit returns the value and that stream, and
likewise for non-empty element and member lists followed by their
closing delimiter. -/
theorem rt_all : ∀ fuel : Nat,
    (∀ (v : Json) (rest : List Char), sizeJ v ≤ fuel → notDigitStart rest = true →
      parseVal fuel (dumpsChars v ++ rest) = some (v, rest)) ∧
    (∀ (xs : List Json) (rest : List Char), xs ≠ [] → sizeJL xs ≤ fuel →
      parseElems fuel (dumpsList xs ++ ']' :: rest) = some (xs, rest)) ∧
    (∀ (kvs : List (String × Json)) (rest : List Char), kvs ≠ [] → sizeJO kvs ≤ fuel →
      parseMembers fuel (dumpsObj kvs ++ rbrace :: rest) = some (kvs, rest)) := by
  intro fuel
  induction fuel with
  | zero =>
      exact ⟨fun v _ hs _ => absurd hs (by have := sizeJ_pos v; omega),
        fun xs _ _ hs => absurd hs (by have := sizeJL_pos xs; omega),
        fun kvs _ _ hs => absurd hs (by have := sizeJO_pos kvs; omega)⟩
  | succ fuel ih =>
      obtain ⟨ihv, ihe, ihm⟩ := ih
      refine ⟨?_, ?_, ?_⟩
      · intro v rest hs hr
        cases v with
        | null =>
            show parseVal (fuel + 1) ('n' :: 'u' :: 'l' :: 'l' :: rest) =
              some (Json.null, rest)
            simp only [parseVal]
            rw [skipWs_cons_not_ws (by decide)]
            show parseValHead fuel 'n' ('u' :: 'l' :: 'l' :: rest) = some (Json.null, rest)
            rw [parseValHead_null]
            rfl
        | bool b =>
            cases b with
            | true =>
                show parseVal (fuel + 1) ('t' :: 'r' :: 'u' :: 'e' :: rest) =
                  some (Json.bool true, rest)
                simp only [parseVal]
                rw [skipWs_cons_not_ws (by decide)]
                show parseValHead fuel 't' ('r' :: 'u' :: 'e' :: rest) =
                  some (Json.bool true, rest)
                rw [parseValHead_true]
                rfl
            | false =>
                show parseVal (fuel + 1) ('f' :: 'a' :: 'l' :: 's' :: 'e' :: rest) =
                  some (Json.bool false, rest)
                simp only [parseVal]
                rw [skipWs_cons_not_ws (by decide)]
                show parseValHead fuel 'f' ('a' :: 'l' :: 's' :: 'e' :: rest) =
                  some (Json.bool false, rest)
                rw [parseValHead_false]
                rfl
        | num n =>
            rcases n with m | m
            · have hd : dumpsChars (Json.num (Int.ofNat m)) = natChars m := by
                show intChars (Int.ofNat m) = natChars m
                have hneg : ¬ (Int.ofNat m < 0) := Int.not_lt.mpr (Int.ofNat_nonneg m)
                rw [intChars, if_neg hneg]
                rfl
              rcases hnc : natChars m with _ | ⟨c, t⟩
              · exact absurd hnc (natChars_ne_nil m)
              obtain ⟨d, hd10, rfl⟩ := natChars_shape m c
                (by rw [hnc]; exact List.mem_cons_self _ _)
              have hf := digitChar_facts d hd10
              rw [hd, hnc, List.cons_append]
              simp only [parseVal]
              rw [skipWs_cons_not_ws hf.2.2.1]
              show parseValHead fuel (digitChar d) (t ++ rest) =
                some (Json.num (Int.ofNat m), rest)
              rw [parseValHead_digit fuel (t ++ rest) hf.2.2.2.1 hf.2.2.2.2.1
                hf.2.2.2.2.2.1 hf.2.2.2.2.2.2.1 hf.2.2.2.2.2.2.2.1
                hf.2.2.2.2.2.2.2.2.1 hf.2.2.2.2.2.2.2.2.2.1 hf.1]
              rw [show digitChar d :: (t ++ rest) = natChars m ++ rest from by
                rw [hnc, List.cons_append]]
              rw [parseNatNum_natChars m rest hr]
              rfl
            · have hd : dumpsChars (Json.num (Int.negSucc m)) = '-' :: natChars (m + 1) := by
                show intChars (Int.negSucc m) = _
                rw [intChars, if_pos (Int.negSucc_lt_zero m), Int.natAbs_negSucc]
              rw [hd, List.cons_append]
              simp only [parseVal]
              rw [skipWs_cons_not_ws (by decide)]
              show parseValHead fuel '-' (natChars (m + 1) ++ rest) =
                some (Json.num (Int.negSucc m), rest)
              rw [parseValHead_minus, parseNatNum_natChars (m + 1) rest hr]
              show some (Json.num (-((m + 1 : Nat) : Int)), rest) =
                some (Json.num (Int.negSucc m), rest)
              have hneq : -((m + 1 : Nat) : Int) = Int.negSucc m := by
                rw [Int.negSucc_eq]
                push_cast
                ring
              rw [hneq]
        | str s =>
            have hstream : dumpsChars (Json.str s) ++ rest =
                '"' :: (escChars s.data ++ '"' :: rest) := by
              show ('"' :: (escChars s.data ++ ['"'])) ++ rest = _
              rw [List.cons_append, List.append_assoc]
              rfl
            rw [hstream]
            simp only [parseVal]
            rw [skipWs_cons_not_ws (by decide)]
            show parseValHead fuel '"' (escChars s.data ++ '"' :: rest) =
              some (Json.str s, rest)
            rw [parseValHead_quote, parseStrBody_escChars]
            show some (Json.str (String.mk s.data), rest) = some (Json.str s, rest)
            cases s
            rfl
        | arr xs =>
            cases xs with
            | nil =>
                show parseVal (fuel + 1) ('[' :: ']' :: rest) = some (Json.arr [], rest)
                simp only [parseVal]
                rw [skipWs_cons_not_ws (by decide)]
                show parseValHead fuel '[' (']' :: rest) = some (Json.arr [], rest)
                rw [parseValHead_lbrack, skipWs_cons_not_ws (by decide)]
                simp
            | cons x xs =>
                have hs' : sizeJL (x :: xs) ≤ fuel := by
                  have h1 : 1 + sizeJL (x :: xs) ≤ fuel + 1 := hs
                  omega
                obtain ⟨u, hu⟩ := dumpsList_cons_decomp x xs
                obtain ⟨c, t, hct, hws, hcne⟩ := dumpsChars_head x
                have hstream : dumpsChars (Json.arr (x :: xs)) ++ rest =
                    '[' :: (dumpsList (x :: xs) ++ ']' :: rest) := by
                  show ('[' :: (dumpsList (x :: xs) ++ [']'])) ++ rest = _
                  rw [List.cons_append, List.append_assoc]
                  rfl
                have hSdec : dumpsList (x :: xs) ++ ']' :: rest =
                    c :: ((t ++ u) ++ ']' :: rest) := by
                  rw [hu, hct, List.cons_append, List.cons_append]
                rw [hstream]
                simp only [parseVal]
                rw [skipWs_cons_not_ws (by decide)]
                show parseValHead fuel '[' (dumpsList (x :: xs) ++ ']' :: rest) =
                  some (Json.arr (x :: xs), rest)
                rw [parseValHead_lbrack, hSdec, skipWs_cons_not_ws hws]
                show (if c = ']' then some (Json.arr [], (t ++ u) ++ ']' :: rest)
                  else (parseElems fuel (c :: ((t ++ u) ++ ']' :: rest))).map
                    (fun r => (Json.arr r.1, r.2))) = some (Json.arr (x :: xs), rest)
                rw [if_neg hcne, ← hSdec, ihe (x :: xs) rest (List.cons_ne_nil x xs) hs']
                rfl
        | obj kvs =>
            cases kvs with
            | nil =>
                show parseVal (fuel + 1) (lbrace :: rbrace :: rest) = some (Json.obj [], rest)
                simp only [parseVal]
                rw [skipWs_cons_not_ws (by decide)]
                show parseValHead fuel lbrace (rbrace :: rest) = some (Json.obj [], rest)
                rw [parseValHead_lcurly, skipWs_cons_not_ws (by decide)]
                simp
            | cons kv kvs =>
                obtain ⟨k, v⟩ := kv
                have hs' : sizeJO ((k, v) :: kvs) ≤ fuel := by
                  have h1 : 1 + sizeJO ((k, v) :: kvs) ≤ fuel + 1 := hs
                  omega
                obtain ⟨u, hu⟩ := dumpsObj_cons_decomp k v kvs
                have hstream : dumpsChars (Json.obj ((k, v) :: kvs)) ++ rest =
                    lbrace :: (dumpsObj ((k, v) :: kvs) ++ rbrace :: rest) := by
                  show (lbrace :: (dumpsObj ((k, v) :: kvs) ++ [rbrace])) ++ rest = _
                  rw [List.cons_append, List.append_assoc]
                  rfl
                have hSdec : dumpsObj ((k, v) :: kvs) ++ rbrace :: rest =
                    '"' :: (u ++ rbrace :: rest) := by
                  rw [hu, List.cons_append]
                rw [hstream]
                simp only [parseVal]
                rw [skipWs_cons_not_ws (by decide)]
                show parseValHead fuel lbrace (dumpsObj ((k, v) :: kvs) ++ rbrace :: rest) =
                  some (Json.obj ((k, v) :: kvs), rest)
                rw [parseValHead_lcurly, hSdec, skipWs_cons_not_ws (by decide)]
                show (if ('"' : Char) = rbrace then some (Json.obj [], u ++ rbrace :: rest)
                  else (parseMembers fuel ('"' :: (u ++ rbrace :: rest))).map
                    (fun r => (Json.obj r.1, r.2))) = some (Json.obj ((k, v) :: kvs), rest)
                rw [if_neg (by decide), ← hSdec,
                  ihm ((k, v) :: kvs) rest (List.cons_ne_nil _ _) hs']
                rfl
      · intro xs rest hne hs
        cases xs with
        | nil => exact absurd rfl hne
        | cons x xs =>
            have hsx : sizeJ x ≤ fuel := by
              have h1 : sizeJ x + sizeJL xs ≤ fuel + 1 := hs
              have := sizeJL_pos xs
              omega
            cases xs with
            | nil =>
                show parseElems (fuel + 1) (dumpsChars x ++ ']' :: rest) = some ([x], rest)
                simp only [parseElems]
                rw [ihv x (']' :: rest) hsx rfl]
                show parseElemsTail fuel x (skipWs (']' :: rest)) = some ([x], rest)
                rw [skipWs_cons_not_ws (by decide)]
                simp [parseElemsTail]
            | cons y ys =>
                have hsys : sizeJL (y :: ys) ≤ fuel := by
                  have h1 : sizeJ x + sizeJL (y :: ys) ≤ fuel + 1 := hs
                  have := sizeJ_pos x
                  omega
                have hstream : dumpsList (x :: y :: ys) ++ ']' :: rest =
                    dumpsChars x ++ (',' :: ' ' :: (dumpsList (y :: ys) ++ ']' :: rest)) := by
                  show (dumpsChars x ++ ',' :: ' ' :: dumpsList (y :: ys)) ++ ']' :: rest = _
                  rw [List.append_assoc]
                  rfl
                rw [hstream]
                simp only [parseElems]
                rw [ihv x (',' :: ' ' :: (dumpsList (y :: ys) ++ ']' :: rest)) hsx rfl]
                show parseElemsTail fuel x
                  (skipWs (',' :: ' ' :: (dumpsList (y :: ys) ++ ']' :: rest))) =
                  some (x :: y :: ys, rest)
                rw [skipWs_cons_not_ws (by decide)]
                simp only [parseElemsTail]
                rw [if_pos trivial, parseElems_space,
                  ihe (y :: ys) rest (List.cons_ne_nil y ys) hsys]
                rfl
      · intro kvs rest hne hs
        cases kvs with
        | nil => exact absurd rfl hne
        | cons kv kvs =>
            obtain ⟨k, v⟩ := kv
            have hsv : sizeJ v ≤ fuel := by
              have h1 : sizeJ v + sizeJO kvs ≤ fuel + 1 := hs
              have := sizeJO_pos kvs
              omega
            cases kvs with
            | nil =>
                have hstream : dumpsObj [(k, v)] ++ rbrace :: rest =
                    '"' :: (escChars k.data ++ '"' ::
                      (':' :: ' ' :: (dumpsChars v ++ rbrace :: rest))) := by
                  show ('"' :: (escChars k.data ++ '"' :: ':' :: ' ' :: dumpsChars v)) ++
                    rbrace :: rest = _
                  rw [List.cons_append, List.append_assoc]
                  rfl
                rw [hstream]
                simp only [parseMembers]
                rw [skipWs_cons_not_ws (by decide)]
                show (parseStrBody (escChars k.data ++ '"' ::
                    (':' :: ' ' :: (dumpsChars v ++ rbrace :: rest)))).bind
                  (fun r => parseMemberSep fuel (String.mk r.1) (skipWs r.2)) =
                  some ([(k, v)], rest)
                rw [parseStrBody_escChars]
                show parseMemberSep fuel (String.mk k.data)
                  (skipWs (':' :: ' ' :: (dumpsChars v ++ rbrace :: rest))) =
                  some ([(k, v)], rest)
                rw [skipWs_cons_not_ws (by decide)]
                simp only [parseMemberSep]
                rw [if_pos trivial, parseVal_space, ihv v (rbrace :: rest) hsv rfl]
                show parseMemberTail fuel (String.mk k.data) v (skipWs (rbrace :: rest)) =
                  some ([(k, v)], rest)
                rw [skipWs_cons_not_ws (by decide)]
                simp only [parseMemberTail]
                have hnc : ¬ (rbrace = ',') := by decide
                rw [if_neg hnc, if_pos trivial]
            | cons m kvs =>
                have hsm : sizeJO (m :: kvs) ≤ fuel := by
                  have h1 : sizeJ v + sizeJO (m :: kvs) ≤ fuel + 1 := hs
                  have := sizeJ_pos v
                  omega
                have hstream : dumpsObj ((k, v) :: m :: kvs) ++ rbrace :: rest =
                    '"' :: (escChars k.data ++ '"' :: (':' :: ' ' :: (dumpsChars v ++
                      (',' :: ' ' :: (dumpsObj (m :: kvs) ++ rbrace :: rest))))) := by
                  show (('"' :: (escChars k.data ++ '"' :: ':' :: ' ' :: dumpsChars v)) ++
                    ',' :: ' ' :: dumpsObj (m :: kvs)) ++ rbrace :: rest = _
                  simp only [List.cons_append, List.append_assoc]
                rw [hstream]
                simp only [parseMembers]
                rw [skipWs_cons_not_ws (by decide)]
                show (parseStrBody (escChars k.data ++ '"' :: (':' :: ' ' ::
                    (dumpsChars v ++ (',' :: ' ' ::
                      (dumpsObj (m :: kvs) ++ rbrace :: rest)))))).bind
                  (fun r => parseMemberSep fuel (String.mk r.1) (skipWs r.2)) =
                  some ((k, v) :: m :: kvs, rest)
                rw [parseStrBody_escChars]
                show parseMemberSep fuel (String.mk k.data)
                  (skipWs (':' :: ' ' :: (dumpsChars v ++ (',' :: ' ' ::
                    (dumpsObj (m :: kvs) ++ rbrace :: rest))))) =
                  some ((k, v) :: m :: kvs, rest)
                rw [skipWs_cons_not_ws (by decide)]
                simp only [parseMemberSep]
                rw [if_pos trivial, parseVal_space,
                  ihv v (',' :: ' ' :: (dumpsObj (m :: kvs) ++ rbrace :: rest)) hsv rfl]
                show parseMemberTail fuel (String.mk k.data) v
                  (skipWs (',' :: ' ' :: (dumpsObj (m :: kvs) ++ rbrace :: rest))) =
                  some ((k, v) :: m :: kvs, rest)
                rw [skipWs_cons_not_ws (by decide)]
                simp only [parseMemberTail]
                rw [if_pos trivial, parseMembers_space,
                  ihm (m :: kvs) rest (List.cons_ne_nil _ _) hsm]
                show some ((String.mk k.data, v) :: m :: kvs, rest) =
                  some ((k, v) :: m :: kvs, rest)
                cases k
                rfl

mutual

/-- A document's fuel measure is bounded by its rendering's length. -/
theorem sizeJ_le_len : ∀ v : Json, sizeJ v ≤ (dumpsChars v).length
  | Json.null => by show 1 ≤ 4; omega
  | Json.bool true => by show 1 ≤ 4; omega
  | Json.bool false => by show 1 ≤ 5; omega
  | Json.num n => by
      show 1 ≤ (intChars n).length
      rcases n with m | m
      · show 1 ≤ (natChars (Int.ofNat m).toNat).length
        exact List.length_pos.mpr (natChars_ne_nil (Int.ofNat m).toNat)
      · have hd : intChars (Int.negSucc m) = '-' :: natChars (Int.negSucc m).natAbs := by
          rw [intChars, if_pos (Int.negSucc_lt_zero m)]
        rw [hd]
        simp
  | Json.str s => by
      show 1 ≤ ('"' :: (escChars s.data ++ ['"'])).length
      simp
  | Json.arr xs => by
      show 1 + sizeJL xs ≤ ('[' :: (dumpsList xs ++ [']'])).length
      have h := sizeJL_le_len xs
      simp only [List.length_cons, List.length_append, List.length_singleton]
      omega
  | Json.obj kvs => by
      show 1 + sizeJO kvs ≤ (lbrace :: (dumpsObj kvs ++ [rbrace])).length
      have h := sizeJO_le_len kvs
      simp only [List.length_cons, List.length_append, List.length_singleton]
      omega

/-- An element list's fuel measure is bounded by its rendering's length
plus one. -/
theorem sizeJL_le_len : ∀ xs : List Json, sizeJL xs ≤ (dumpsList xs).length + 1
  | [] => by show 1 ≤ ([] : List Char).length + 1; simp
  | [x] => by
      show sizeJ x + 1 ≤ (dumpsChars x).length + 1
      have h := sizeJ_le_len x
      omega
  | x :: y :: ys => by
      show sizeJ x + sizeJL (y :: ys) ≤
        (dumpsChars x ++ ',' :: ' ' :: dumpsList (y :: ys)).length + 1
      have h1 := sizeJ_le_len x
      have h2 := sizeJL_le_len (y :: ys)
      simp only [List.length_append, List.length_cons]
      omega

/-- A member list's fuel measure is bounded by its rendering's length
plus one. -/
theorem sizeJO_le_len : ∀ kvs : List (String × Json),
    sizeJO kvs ≤ (dumpsObj kvs).length + 1
  | [] => by show 1 ≤ ([] : List Char).length + 1; simp
  | [(k, v)] => by
      show sizeJ v + 1 ≤
        ('"' :: (escChars k.data ++ '"' :: ':' :: ' ' :: dumpsChars v)).length + 1
      have h := sizeJ_le_len v
      simp only [List.length_cons, List.length_append]
      omega
  | (k, v) :: m :: kvs => by
      show sizeJ v + sizeJO (m :: kvs) ≤
        (('"' :: (escChars k.data ++ '"' :: ':' :: ' ' :: dumpsChars v)) ++
          ',' :: ' ' :: dumpsObj (m :: kvs)).length + 1
      have h1 := sizeJ_le_len v
      have h2 := sizeJO_le_len (m :: kvs)
      simp only [List.length_cons, List.length_append]
      omega

end

/-- Round trip of the full pipeline serializer and parser: json.loads
inverts json.dumps on every document. -/
theorem json_loads_dumps (v : Json) : json_loads (json_dumps v) = some v := by
  have h := (rt_all ((dumpsChars v).length + 1)).1 v []
    (by have := sizeJ_le_len v; omega) rfl
  rw [List.append_nil] at h
  have hdata : (json_dumps v).data = dumpsChars v := rfl
  have hlen : (json_dumps v).length = (dumpsChars v).length := rfl
  simp only [json_loads, hdata, hlen, h]
  rfl

/-- C6: the bytes upload_line_routes_to_s3 uploads round-trip to the
fetched route payload: with compress set, the single uploaded object is
the gzip container of the UTF-8 JSON serialization, gunzipping it and
parsing yields the payload; without compression parsing the body
directly yields the payload; and the serialization passes every
non-control, non-quote, non-backslash character through verbatim (no
ASCII escaping). -/
theorem claimC6_roundtrip (bucket keyPfx awsRegion : Option String)
    (line_ids service_types modes : Option (List String))
    (env : String → Option String) (routes : List Json) (now : UtcTime) (cfg : S3Config)
    (hres : _resolve_s3_config bucket keyPfx awsRegion env = .ok cfg) :
    (∃ key, (upload_line_routes_to_s3 bucket keyPfx line_ids service_types modes true
        awsRegion env (.json (.arr routes)) now).puts =
        [⟨cfg.bucketName, key, .gzipped (json_dumps (.arr routes))⟩] ∧
      gunzipBody (.gzipped (json_dumps (.arr routes))) = some (json_dumps (.arr routes)) ∧
      json_loads (json_dumps (.arr routes)) = some (.arr routes)) ∧
    (∃ key, (upload_line_routes_to_s3 bucket keyPfx line_ids service_types modes false
        awsRegion env (.json (.arr routes)) now).puts =
        [⟨cfg.bucketName, key, .plain (json_dumps (.arr routes))⟩] ∧
      (plainBody (.plain (json_dumps (.arr routes)))).bind json_loads =
        some (.arr routes)) ∧
    (∀ c : Char, 32 ≤ c.toNat → c ≠ '"' → c ≠ '\\' → escChar c = [c]) := by
  refine ⟨⟨if cfg.keyPfx.isEmpty then
        "line-routes-" ++ strftimeCompact now ++ ".json" ++ ".gz"
      else rstripSlash cfg.keyPfx ++ "/" ++
        ("line-routes-" ++ strftimeCompact now ++ ".json" ++ ".gz"),
      ?_, rfl, json_loads_dumps _⟩,
    ⟨if cfg.keyPfx.isEmpty then
        "line-routes-" ++ strftimeCompact now ++ ".json" ++ ""
      else rstripSlash cfg.keyPfx ++ "/" ++
        ("line-routes-" ++ strftimeCompact now ++ ".json" ++ ""),
      ?_, ?_⟩, ?_⟩
  · unfold upload_line_routes_to_s3
    rw [hres]
    rfl
  · unfold upload_line_routes_to_s3
    rw [hres]
    rfl
  · show json_loads (json_dumps (.arr routes)) = some (.arr routes)
    exact json_loads_dumps _
  · intro c h32 hq hbs
    have h3 : c ≠ '\n' := fun h => by subst h; exact absurd h32 (by decide)
    have h4 : c ≠ '\t' := fun h => by subst h; exact absurd h32 (by decide)
    have h5 : c ≠ '\r' := fun h => by subst h; exact absurd h32 (by decide)
    have h6 : ¬ (c.toNat = 8) := by omega
    have h7 : ¬ (c.toNat = 12) := by omega
    have h8 : ¬ (c.toNat < 32) := by omega
    rw [escChar, if_neg hq, if_neg hbs, if_neg h3, if_neg h4, if_neg h5, if_neg h6,
      if_neg h7, if_neg h8]

/-- Witness for C6 at concrete inputs: one route record with a
non-ASCII name, compressed upload, empty prefix. -/
theorem claimC6_witness :
    ∃ key, (upload_line_routes_to_s3 (some "b") none none none none true none
        (fun _ => none) (.json (.arr [.obj [("name", .str "Ö")]]))
        ⟨2026, 10, 12, 3, 4, 5⟩).puts =
        [⟨"b", key, .gzipped (json_dumps (.arr [.obj [("name", .str "Ö")]]))⟩] ∧
      gunzipBody (.gzipped (json_dumps (.arr [.obj [("name", .str "Ö")]]))) =
        some (json_dumps (.arr [.obj [("name", .str "Ö")]])) ∧
      json_loads (json_dumps (.arr [.obj [("name", .str "Ö")]])) =
        some (.arr [.obj [("name", .str "Ö")]]) :=
  (claimC6_roundtrip (some "b") none none none none none (fun _ => none)
    [.obj [("name", .str "Ö")]] ⟨2026, 10, 12, 3, 4, 5⟩ ⟨"b", "", none⟩ rfl).1

end TflPipeline
